import Mathlib

/-!
Verification development for the HT600/HT680 pulse-train decoder
(`src/HT600.cpp`).  The decoder is a finite-state machine fed with pin-edge
events `(pinState, ticks)`; it classifies pulse widths against tolerance
windows derived at construction time, pairs raw symbols into trinary bits and
packs them into two 3-byte buffers.

The embedding below mirrors `HT600.cpp` field by field and branch by branch.
Machine integers are modelled as `Nat` with explicit `% 2^32` where the code
relies on `uint32_t` wraparound, and explicit saturation at `0xFFFF` where the
code saturates.  The two 3-byte buffers are modelled as functions `ℕ → ℕ`
(byte index to byte value); the safety theorem shows every access stays in
bytes 0..2.  The constructor's `float` arithmetic is modelled by exact
rational arithmetic with truncation (`Int.floor`) at each `uint16_t` cast.
-/

/-- `enum class HT600_STATE { IDLE, READING, DONE }`. -/
inductive HT600_STATE where
  | IDLE
  | READING
  | DONE
deriving DecidableEq, Repr

open HT600_STATE

/-- The fields of the `HT600` class (`HT600.h`): the six derived timing
thresholds (all `uint16_t` in the source), the state machine fields and the
two 3-byte bit buffers, modelled as byte-indexed functions. -/
structure HT600 where
  short_tick_min : ℕ
  short_tick_max : ℕ
  long_tick_min : ℕ
  long_tick_max : ℕ
  pilot_tick_min : ℕ
  noise_filter_tick : ℕ
  state : HT600_STATE
  buffer_HL : ℕ → ℕ
  buffer_Z : ℕ → ℕ
  bit_index : ℕ
  half_symbol_read : Bool
  last_symbol : Bool
  last_interrupt_tick : ℕ
  period_L : ℕ
  period_H : ℕ

attribute [ext] HT600

/-- `HT600_IS_IN_RANGE(val, min, max)  :=  (val >= min && val <= max)`. -/
def HT600_IS_IN_RANGE (val lo hi : ℕ) : Prop := lo ≤ val ∧ val ≤ hi

instance : ∀ val lo hi, Decidable (HT600_IS_IN_RANGE val lo hi) := fun _ _ _ =>
  inferInstanceAs (Decidable (_ ∧ _))

/-- Unsigned 32-bit wraparound subtraction `a - b` (both operands reduced to
`uint32_t`), as used for `delta = now - _last_interrupt_tick`. -/
def u32_sub (a b : ℕ) : ℕ :=
  (a % 4294967296 + (4294967296 - b % 4294967296)) % 4294967296

/-- `(delta > 0xFFFF) ? 0xFFFF : (uint16_t)delta` — saturation of a measured
period into a `uint16_t` field. -/
def capped (delta : ℕ) : ℕ := if delta > 65535 then 65535 else delta

/-- Pointwise update of one byte of a buffer (`buf[i] = v`). -/
def updByte (buf : ℕ → ℕ) (i v : ℕ) : ℕ → ℕ := fun j => if j = i then v else buf j

/-- The half-symbol pairing logic of `HT600::processEvent` (lines 106-157):
first half of a symbol pair is latched into `_last_symbol`, the second half
decodes a sync or data bit. -/
def decodeSymbol (s : HT600) (current_symbol : Bool) : HT600 :=
  if s.half_symbol_read = false then
    { s with half_symbol_read := true, last_symbol := current_symbol }
  else
    let s1 := { s with half_symbol_read := false }
    if s1.state = READING then
      if s1.bit_index < 2 then
        -- SYNC pattern validation: must be symbol 0 then symbol 1
        if s1.last_symbol = false ∧ current_symbol = true then
          { s1 with bit_index := s1.bit_index + 1 }
        else
          { s1 with state := IDLE }
      else
        -- data bits (bit 2 to 19)
        let byte_idx := s1.bit_index >>> 3
        let bit_mask := 1 <<< (s1.bit_index &&& 7)
        if s1.last_symbol = false ∧ current_symbol = false then
          let s2 := { s1 with
            buffer_HL := updByte s1.buffer_HL byte_idx (s1.buffer_HL byte_idx &&& (255 ^^^ bit_mask)),
            buffer_Z := updByte s1.buffer_Z byte_idx (s1.buffer_Z byte_idx &&& (255 ^^^ bit_mask)),
            bit_index := s1.bit_index + 1 }
          if s2.bit_index ≥ 20 then { s2 with state := DONE } else s2
        else if s1.last_symbol = true ∧ current_symbol = true then
          let s2 := { s1 with
            buffer_HL := updByte s1.buffer_HL byte_idx (s1.buffer_HL byte_idx ||| bit_mask),
            buffer_Z := updByte s1.buffer_Z byte_idx (s1.buffer_Z byte_idx &&& (255 ^^^ bit_mask)),
            bit_index := s1.bit_index + 1 }
          if s2.bit_index ≥ 20 then { s2 with state := DONE } else s2
        else if s1.last_symbol = true ∧ current_symbol = false then
          let s2 := { s1 with
            buffer_HL := updByte s1.buffer_HL byte_idx (s1.buffer_HL byte_idx &&& (255 ^^^ bit_mask)),
            buffer_Z := updByte s1.buffer_Z byte_idx (s1.buffer_Z byte_idx ||| bit_mask),
            bit_index := s1.bit_index + 1 }
          if s2.bit_index ≥ 20 then { s2 with state := DONE } else s2
        else
          { s1 with state := IDLE }
    else
      s1

/-- The tail of `HT600::processEvent` after `_period_H` has been stored
(HT600.cpp lines 70-157): pilot detection in `IDLE`, symbol classification and
mid-stream pilot / invalid-timing handling otherwise.  `s2` is the state with
`last_interrupt_tick` and `period_H` already updated. -/
def fallingLogic (s2 : HT600) : HT600 :=
  if s2.state = IDLE then
    if s2.period_L > s2.pilot_tick_min ∧
       HT600_IS_IN_RANGE s2.period_H s2.short_tick_min s2.short_tick_max then
      { s2 with state := READING, bit_index := 0, half_symbol_read := false }
    else
      s2
  else
    if HT600_IS_IN_RANGE s2.period_L s2.short_tick_min s2.short_tick_max ∧
       HT600_IS_IN_RANGE s2.period_H s2.long_tick_min s2.long_tick_max then
      decodeSymbol s2 false
    else if HT600_IS_IN_RANGE s2.period_L s2.long_tick_min s2.long_tick_max ∧
            HT600_IS_IN_RANGE s2.period_H s2.short_tick_min s2.short_tick_max then
      decodeSymbol s2 true
    else if s2.period_L > s2.pilot_tick_min ∧
            HT600_IS_IN_RANGE s2.period_H s2.short_tick_min s2.short_tick_max then
      -- mid-stream pilot: restart reading
      { s2 with state := READING, bit_index := 0, half_symbol_read := false }
    else
      -- bad timing, reset to IDLE
      { s2 with state := IDLE }

/-- `HT600::processEvent(const bool pinState, const uint32_t ticks)`
(HT600.cpp lines 48-158), translated branch by branch. -/
def processEvent (s : HT600) (pinState : Bool) (ticks : ℕ) : HT600 :=
  -- If the state is DONE, wait until the results are handled by the main loop
  if s.state = DONE then s
  else
    let now := ticks % 4294967296
    let delta := u32_sub now s.last_interrupt_tick
    -- de-glitch filter
    if delta < s.noise_filter_tick then s
    else
      let s1 := { s with last_interrupt_tick := now }
      if pinState = true then
        -- rising edge: store the duration of the preceding LOW period
        { s1 with period_L := capped delta }
      else
        -- falling edge: store the duration of the preceding HIGH period
        fallingLogic { s1 with period_H := capped delta }

/-- `HT600::get_HL_data(bool z_mapping_value)` (lines 165-185): extract the
first 16 data bits, mapping each `Z` bit to `z_mapping_value`. -/
def get_HL_data (s : HT600) (z_mapping_value : Bool) : ℕ :=
  (List.range 16).foldl (fun result i =>
    let internal_idx := i + 2
    let byte_idx := internal_idx >>> 3
    let bit_mask := 1 <<< (internal_idx &&& 7)
    let bit_hl : Bool := s.buffer_HL byte_idx &&& bit_mask != 0
    let bit_z : Bool := s.buffer_Z byte_idx &&& bit_mask != 0
    if bit_z then (if z_mapping_value then result ||| (1 <<< i) else result)
    else (if bit_hl then result ||| (1 <<< i) else result)) 0

/-- `HT600::get_Z_data(bool z_value)` (lines 193-212): the High-Z mask for the
first 16 data bits, with configurable polarity (`!(is_z ^ z_value)`). -/
def get_Z_data (s : HT600) (z_value : Bool) : ℕ :=
  (List.range 16).foldl (fun result i =>
    let internal_idx := i + 2
    let byte_idx := internal_idx >>> 3
    let bit_mask := 1 <<< (internal_idx &&& 7)
    let is_z : Bool := s.buffer_Z byte_idx &&& bit_mask != 0
    if !(is_z ^^ z_value) then result ||| (1 <<< i) else result) 0

/-- `HT600::reset()` (lines 214-228): return to `IDLE`, zero the decoding
fields and clear the two 3-byte buffers (bytes 0, 1, 2). -/
def HT600.reset (s : HT600) : HT600 :=
  { s with
    state := IDLE
    bit_index := 0
    half_symbol_read := false
    last_symbol := false
    last_interrupt_tick := 0
    period_L := 0
    period_H := 0
    buffer_HL := fun i => if i < 3 then 0 else s.buffer_HL i
    buffer_Z := fun i => if i < 3 then 0 else s.buffer_Z i }

/-- The six derived thresholds of a decoder instance. -/
structure Cfg where
  short_tick_min : ℕ
  short_tick_max : ℕ
  long_tick_min : ℕ
  long_tick_max : ℕ
  pilot_tick_min : ℕ
  noise_filter_tick : ℕ
deriving DecidableEq, Repr

/-- The post-construction state for thresholds `c`: the constructor stores the
thresholds and then calls `reset()`, so every dynamic field is zeroed and the
state is `IDLE`. -/
def initState (c : Cfg) : HT600 where
  short_tick_min := c.short_tick_min
  short_tick_max := c.short_tick_max
  long_tick_min := c.long_tick_min
  long_tick_max := c.long_tick_max
  pilot_tick_min := c.pilot_tick_min
  noise_filter_tick := c.noise_filter_tick
  state := IDLE
  buffer_HL := fun _ => 0
  buffer_Z := fun _ => 0
  bit_index := 0
  half_symbol_read := false
  last_symbol := false
  last_interrupt_tick := 0
  period_L := 0
  period_H := 0

/-- The threshold computation of the constructor
`HT600::HT600(fosc_khz, tolerance, tick_length_us, noise_filter_us)`
(lines 15-39).  The source computes with `float`; the model uses exact
rational arithmetic, with `Int.floor` at each `uint16_t(...)` cast
(truncation of a non-negative value).  `tolerance` is the integer
percentage argument (`e.g., 30 for 30%`); the noise floor is the C unsigned
integer division `noise_filter_us / tick_length_us`. -/
def mkCfg (fosc_khz tolerance tick_length_us noise_filter_us : ℕ) : Cfg :=
  let base_period_us : ℚ := 33000 / (fosc_khz : ℚ)
  let T_ticks : ℚ := base_period_us / (tick_length_us : ℚ)
  { short_tick_min := (⌊T_ticks * (100 - (tolerance : ℚ)) / 100⌋).toNat
    short_tick_max := (⌊T_ticks * (100 + (tolerance : ℚ)) / 100⌋).toNat
    long_tick_min := (⌊(T_ticks * 2) * (100 - (tolerance : ℚ)) / 100⌋).toNat
    long_tick_max := (⌊(T_ticks * 2) * (100 + (tolerance : ℚ)) / 100⌋).toNat
    pilot_tick_min := (⌊(T_ticks * 36) * (100 - (tolerance : ℚ)) / 100⌋).toNat
    noise_filter_tick := noise_filter_us / tick_length_us }

/-- Full constructor: compute the thresholds, then `reset()`. -/
def mkHT600 (fosc_khz tolerance tick_length_us noise_filter_us : ℕ) : HT600 :=
  initState (mkCfg fosc_khz tolerance tick_length_us noise_filter_us)

/-- Feed a list of `(pinState, ticks)` events through `processEvent`. -/
def runEvents (s : HT600) (es : List (Bool × ℕ)) : HT600 :=
  es.foldl (fun acc e => processEvent acc e.1 e.2) s

/-- Every decoder state reachable from construction with thresholds `c` by
`processEvent` and `reset` calls. -/
inductive Reachable (c : Cfg) : HT600 → Prop
  | init : Reachable c (initState c)
  | step (s : HT600) (pinState : Bool) (ticks : ℕ) :
      Reachable c s → Reachable c (processEvent s pinState ticks)
  | rst (s : HT600) : Reachable c s → Reachable c s.reset

/-- Bit `idx` of a packed buffer, exactly as the code addresses it:
byte `idx >>> 3`, bit `idx &&& 7`. -/
def bufBit (buf : ℕ → ℕ) (idx : ℕ) : Bool := (buf (idx >>> 3)).testBit (idx &&& 7)

/-- The symbol pair transmitted for bit position `j` of a frame carrying
value `v` with Z-mask `m`: positions 0 and 1 are the SYNC pair (symbol 0 then
symbol 1); payload position `j` carries `(1,0)` if bit `j - 2` of `m` is set,
`(1,1)` if bit `j - 2` of `v` is set, and `(0,0)` otherwise. -/
def pairSyms (v m j : ℕ) : Bool × Bool :=
  if j < 2 then (false, true)
  else if m.testBit (j - 2) then (true, false)
  else if v.testBit (j - 2) then (true, true)
  else (false, false)

/-- The widths `(lo, hi)` are a valid transmission of raw symbol `c` under
thresholds `cfg`: symbol 1 is a long low pulse and a short high pulse,
symbol 0 a short low pulse and a long high pulse. -/
def symWidthOk (cfg : Cfg) (c : Bool) (lo hi : ℕ) : Prop :=
  if c then
    HT600_IS_IN_RANGE lo cfg.long_tick_min cfg.long_tick_max ∧
    HT600_IS_IN_RANGE hi cfg.short_tick_min cfg.short_tick_max
  else
    HT600_IS_IN_RANGE lo cfg.short_tick_min cfg.short_tick_max ∧
    HT600_IS_IN_RANGE hi cfg.long_tick_min cfg.long_tick_max

instance : ∀ cfg c lo hi, Decidable (symWidthOk cfg c lo hi) := fun cfg c lo hi => by
  unfold symWidthOk
  split <;> exact inferInstanceAs (Decidable (_ ∧ _))

/-- The edge events of `n` consecutive symbol pairs starting at pair index
`j` and time `t`, where raw symbol `k` occupies a low pulse of width `wL k`
followed by a high pulse of width `wH k` (pair `j` is raw symbols `2*j` and
`2*j + 1`).  Each pulse ends with one pin transition: a rising edge after the
low pulse, a falling edge after the high pulse. -/
def pairEdgeList (wL wH : ℕ → ℕ) : ℕ → ℕ → ℕ → List (Bool × ℕ)
  | 0, _, _ => []
  | n + 1, j, t =>
    let a := wL (2 * j)
    let b := wH (2 * j)
    let c := wL (2 * j + 1)
    let d := wH (2 * j + 1)
    (true, t + a) :: (false, t + a + b) ::
    (true, t + a + b + c) :: (false, t + a + b + c + d) ::
    pairEdgeList wL wH n (j + 1) (t + a + b + c + d)

/-- The complete edge sequence of a frame: the pilot low pulse of width `p`
(running from time 0) ends with a rising edge, a high pulse of width `h`
ends with a falling edge, then the 20 symbol pairs. -/
def frameEdges (p h : ℕ) (wL wH : ℕ → ℕ) : List (Bool × ℕ) :=
  (true, p) :: (false, p + h) :: pairEdgeList wL wH 20 0 (p + h)

/-- Well-formedness of a threshold configuration, as the spec's invariant
`short_min < short_max < long_min < long_max < pilot_min` plus the facts that
are automatic in the source (`uint16_t` thresholds, noise floor below the
short range). -/
def Cfg.ok (c : Cfg) : Prop :=
  c.short_tick_min < c.short_tick_max ∧
  c.short_tick_max < c.long_tick_min ∧
  c.long_tick_min < c.long_tick_max ∧
  c.long_tick_max < c.pilot_tick_min ∧
  c.noise_filter_tick ≤ c.short_tick_min ∧
  c.short_tick_max ≤ 65535 ∧
  c.long_tick_max ≤ 65535

instance : ∀ c : Cfg, Decidable c.ok := fun c => by
  unfold Cfg.ok; exact inferInstanceAs (Decidable (_ ∧ _))

/-- The thresholds of a decoder state agree with `c`. -/
def sameCfg (c : Cfg) (s : HT600) : Prop :=
  s.short_tick_min = c.short_tick_min ∧
  s.short_tick_max = c.short_tick_max ∧
  s.long_tick_min = c.long_tick_min ∧
  s.long_tick_max = c.long_tick_max ∧
  s.pilot_tick_min = c.pilot_tick_min ∧
  s.noise_filter_tick = c.noise_filter_tick

instance : ∀ (c : Cfg) (s : HT600), Decidable (sameCfg c s) := fun c s => by
  unfold sameCfg
  exact inferInstanceAs (Decidable (_ ∧ _))

/-- Bit `idx` of a buffer after the masked write performed for `bit v` at bit
position `j` (`|= bit_mask` when `v`, `&= ~bit_mask` when not). -/
def bitWrite (buf : ℕ → ℕ) (j : ℕ) (v : Bool) : ℕ → ℕ :=
  updByte buf (j >>> 3)
    (if v then buf (j >>> 3) ||| (1 <<< (j &&& 7))
     else buf (j >>> 3) &&& (255 ^^^ (1 <<< (j &&& 7))))

/-- Mid-frame decoder state: thresholds `c`, reading, between symbol pairs,
`j` pairs accepted, last accepted edge at virtual time `t`. -/
def Mid (c : Cfg) (s : HT600) (j t : ℕ) : Prop :=
  sameCfg c s ∧ s.state = READING ∧ s.half_symbol_read = false ∧
  s.bit_index = j ∧ s.last_interrupt_tick = t % 4294967296

/-- Invariant of every reachable decoder state: the thresholds never change,
the byte buffers are untouched outside bytes 0..2, and `bit_index` stays in
range (at most 19 while decoding, exactly 20 only in `DONE`). -/
def ReachInv (c : Cfg) (s : HT600) : Prop :=
  sameCfg c s ∧
  (∀ i, 3 ≤ i → s.buffer_HL i = 0 ∧ s.buffer_Z i = 0) ∧
  s.bit_index ≤ 20 ∧
  (s.state ≠ DONE → s.bit_index ≤ 19)

/-- Thresholds of a concrete decoder instance used in the concrete
witnesses below: short [91,169], long [181,337], pilot minimum 3270 ticks,
noise floor 50 ticks. -/
def tcfg : Cfg := ⟨91, 169, 181, 337, 3270, 50⟩

/-- The raw symbol transmitted at position `k` (0..39) of a frame carrying
value `v` and Z-mask `m`. -/
def symAt (v m k : ℕ) : Bool :=
  if k % 2 = 0 then (pairSyms v m (k / 2)).1 else (pairSyms v m (k / 2)).2

/-- Concrete low-pulse widths: 260 ticks (long) for symbol 1, 130 ticks
(short) for symbol 0. -/
def stdWL (v m : ℕ) : ℕ → ℕ := fun k => if symAt v m k then 260 else 130

/-- Concrete high-pulse widths: 130 ticks (short) for symbol 1, 260 ticks
(long) for symbol 0. -/
def stdWH (v m : ℕ) : ℕ → ℕ := fun k => if symAt v m k then 130 else 260

/-- A concrete completed-frame state (used as witness input). -/
def doneState : HT600 :=
  ⟨91, 169, 181, 337, 3270, 50, DONE, fun _ => 0, fun _ => 0, 20, false, false,
   11930, 260, 130⟩

/-- A concrete mid-frame `READING` state with `bit_index = 5` whose stored
`period_L = 50` matches no symbol class (used for the invalid-timing
counterexample). -/
def abortState : HT600 :=
  ⟨91, 169, 181, 337, 3270, 50, READING, fun _ => 0, fun _ => 0, 5, false, false,
   0, 50, 0⟩

/-- A concrete mid-frame `READING` state whose stored `period_L = 4000`
exceeds the pilot minimum, with dirty buffers (used for the mid-stream
pilot resync witness). -/
def resyncState : HT600 :=
  ⟨91, 169, 181, 337, 3270, 50, READING, fun _ => 255, fun _ => 255, 7, true, true,
   0, 4000, 130⟩

/-- A concrete `IDLE` state whose stored `period_L = 4000` exceeds the pilot
minimum (used for the pilot-detection witness). -/
def idleArmed : HT600 :=
  ⟨91, 169, 181, 337, 3270, 50, IDLE, fun _ => 0, fun _ => 0, 0, false, false,
   0, 4000, 0⟩

/-! ### Arithmetic and bit-level helper lemmas -/

lemma shiftLeft_one_eq (k : ℕ) : 1 <<< k = 2 ^ k := by
  rw [Nat.shiftLeft_eq, one_mul]

lemma shiftRight_three_eq (n : ℕ) : n >>> 3 = n / 8 := by
  rw [Nat.shiftRight_eq_div_pow]

lemma and_seven_eq (n : ℕ) : n &&& 7 = n % 8 := by
  apply Nat.eq_of_testBit_eq
  intro i
  rw [Nat.testBit_and, show (8 : ℕ) = 2 ^ 3 by norm_num, Nat.testBit_mod_two_pow,
    show (7 : ℕ) = 2 ^ 3 - 1 by norm_num, Nat.testBit_two_pow_sub_one, Bool.and_comm]

lemma idx_decompose (n : ℕ) : 8 * (n >>> 3) + (n &&& 7) = n := by
  rw [shiftRight_three_eq, and_seven_eq]
  omega

lemma and_seven_lt (n : ℕ) : n &&& 7 < 8 := by
  rw [and_seven_eq]; omega

lemma idx_eq_of_parts {a b : ℕ} (h3 : a >>> 3 = b >>> 3) (h7 : a &&& 7 = b &&& 7) :
    a = b := by
  have ha := idx_decompose a
  have hb := idx_decompose b
  omega

lemma and_mask_ne (b k : ℕ) : (b &&& (1 <<< k) != 0) = b.testBit k := by
  rw [shiftLeft_one_eq, Nat.and_two_pow]
  have h2 : (2 : ℕ) ^ k ≠ 0 := (Nat.two_pow_pos k).ne'
  cases h : b.testBit k
  · simp
  · simp [h2]

lemma testBit_255 (k : ℕ) : (255 : ℕ).testBit k = decide (k < 8) := by
  rw [show (255 : ℕ) = 2 ^ 8 - 1 by norm_num, Nat.testBit_two_pow_sub_one]

lemma bufBit_bitWrite (buf : ℕ → ℕ) (j v idx) :
    bufBit (bitWrite buf j v) idx = if idx = j then v else bufBit buf idx := by
  unfold bufBit bitWrite updByte
  by_cases h3 : idx >>> 3 = j >>> 3
  · by_cases h7 : idx &&& 7 = j &&& 7
    · have hidx : idx = j := idx_eq_of_parts h3 h7
      subst hidx
      cases v <;>
        simp [Nat.testBit_and, Nat.testBit_or, Nat.testBit_xor, testBit_255,
          shiftLeft_one_eq, Nat.testBit_two_pow, and_seven_lt idx]
    · have hne : ¬ idx = j := fun h => h7 (by rw [h])
      have h77 : ¬ (j &&& 7 = idx &&& 7) := fun h => h7 h.symm
      cases v <;>
        simp [h3, hne, h77, Nat.testBit_and, Nat.testBit_or, Nat.testBit_xor,
          testBit_255, shiftLeft_one_eq, Nat.testBit_two_pow, and_seven_lt idx]
  · have hne : ¬ idx = j := fun h => h3 (by rw [h])
    simp [h3, hne]

lemma bitWrite_high (buf : ℕ → ℕ) (j v i) (hj : j ≤ 19) (hi : 3 ≤ i) :
    bitWrite buf j v i = buf i := by
  unfold bitWrite updByte
  have : j >>> 3 ≤ 2 := by rw [shiftRight_three_eq]; omega
  rw [if_neg (by omega)]

/-! ### `uint32_t` wraparound subtraction -/

lemma u32_sub_mod_left (a b : ℕ) : u32_sub (a % 4294967296) b = u32_sub a b := by
  unfold u32_sub
  rw [Nat.mod_mod_of_dvd a (dvd_refl 4294967296)]

lemma u32_sub_exact (t d : ℕ) (hd : d < 4294967296) :
    u32_sub (t + d) (t % 4294967296) = d := by
  unfold u32_sub
  rw [Nat.mod_mod_of_dvd _ (dvd_refl _), Nat.mod_add_mod]
  have hmd := Nat.mod_add_div t 4294967296
  have hle : t % 4294967296 ≤ 4294967296 := le_of_lt (Nat.mod_lt _ (by norm_num))
  have harg : t + d + (4294967296 - t % 4294967296)
      = d + 4294967296 * (t / 4294967296) + 4294967296 := by omega
  rw [harg, Nat.add_mod_right, Nat.add_mul_mod_self_left, Nat.mod_eq_of_lt hd]

lemma u32_sub_zero (p : ℕ) (hp : p < 4294967296) : u32_sub p 0 = p := by
  have := u32_sub_exact 0 p hp
  simpa using this

/-! ### Unfolding lemmas for the event processor -/

lemma runEvents_nil (s : HT600) : runEvents s [] = s := rfl

lemma runEvents_cons (s : HT600) (e : Bool × ℕ) (es : List (Bool × ℕ)) :
    runEvents s (e :: es) = runEvents (processEvent s e.1 e.2) es := rfl

lemma runEvents_append (s : HT600) (l1 l2 : List (Bool × ℕ)) :
    runEvents s (l1 ++ l2) = runEvents (runEvents s l1) l2 := by
  unfold runEvents; rw [List.foldl_append]

lemma processEvent_done (s : HT600) (b : Bool) (t : ℕ) (h : s.state = DONE) :
    processEvent s b t = s := by
  unfold processEvent; rw [if_pos h]

lemma processEvent_noise (s : HT600) (b : Bool) (t : ℕ) (h : s.state ≠ DONE)
    (hlt : u32_sub t s.last_interrupt_tick < s.noise_filter_tick) :
    processEvent s b t = s := by
  unfold processEvent
  rw [if_neg h]
  simp only [u32_sub_mod_left]
  rw [if_pos hlt]

lemma processEvent_rising (s : HT600) (t d : ℕ) (h : s.state ≠ DONE)
    (hlast : s.last_interrupt_tick = t % 4294967296) (hd : d < 4294967296)
    (hnf : s.noise_filter_tick ≤ d) :
    processEvent s true (t + d) =
      { s with last_interrupt_tick := (t + d) % 4294967296, period_L := capped d } := by
  unfold processEvent
  rw [if_neg h]
  simp only [u32_sub_mod_left, hlast, u32_sub_exact t d hd]
  rw [if_neg (by omega : ¬ d < s.noise_filter_tick)]
  simp

lemma processEvent_falling (s : HT600) (t d : ℕ) (h : s.state ≠ DONE)
    (hlast : s.last_interrupt_tick = t % 4294967296) (hd : d < 4294967296)
    (hnf : s.noise_filter_tick ≤ d) :
    processEvent s false (t + d) =
      fallingLogic { s with last_interrupt_tick := (t + d) % 4294967296,
                            period_H := capped d } := by
  unfold processEvent
  rw [if_neg h]
  simp only [u32_sub_mod_left, hlast, u32_sub_exact t d hd]
  rw [if_neg (by omega : ¬ d < s.noise_filter_tick)]
  simp

/-! ### Branch lemmas for `decodeSymbol` and `fallingLogic` -/

lemma decode_first (s : HT600) (cs : Bool) (h : s.half_symbol_read = false) :
    decodeSymbol s cs = { s with half_symbol_read := true, last_symbol := cs } := by
  unfold decodeSymbol
  rw [if_pos h]

lemma decode_sync (s : HT600) (h : s.half_symbol_read = true) (hst : s.state = READING)
    (hj : s.bit_index < 2) (hls : s.last_symbol = false) :
    decodeSymbol s true =
      { s with half_symbol_read := false, bit_index := s.bit_index + 1 } := by
  unfold decodeSymbol
  rw [if_neg (by simp [h]), if_pos (by simpa using hst), if_pos (by simpa using hj),
    if_pos ⟨by simpa using hls, rfl⟩]

lemma decode_data (s : HT600) (a b : Bool) (h : s.half_symbol_read = true)
    (hst : s.state = READING) (hj : ¬ s.bit_index < 2) (hls : s.last_symbol = a)
    (hv : ¬ (a = false ∧ b = true)) :
    decodeSymbol s b =
      { s with half_symbol_read := false,
               buffer_HL := bitWrite s.buffer_HL s.bit_index (a && b),
               buffer_Z := bitWrite s.buffer_Z s.bit_index (a && !b),
               bit_index := s.bit_index + 1,
               state := if s.bit_index + 1 ≥ 20 then DONE else READING } := by
  unfold decodeSymbol
  rw [if_neg (by simp [h]), if_pos (by simpa using hst), if_neg (by simpa using hj)]
  cases a <;> cases b
  · -- (0, 0): logical '0'
    rw [if_pos ⟨by simpa using hls, rfl⟩]
    by_cases h20 : s.bit_index + 1 ≥ 20 <;>
      simp [h20, bitWrite, hst, HT600.ext_iff]
  · -- (0, 1): invalid during payload — excluded by `hv`
    exact absurd ⟨rfl, rfl⟩ hv
  · -- (1, 0): logical 'Z'
    rw [if_neg (by simp [hls]), if_neg (by simp), if_pos ⟨by simpa using hls, rfl⟩]
    by_cases h20 : s.bit_index + 1 ≥ 20 <;>
      simp [h20, bitWrite, hst, HT600.ext_iff]
  · -- (1, 1): logical '1'
    rw [if_neg (by simp [hls]), if_pos ⟨by simpa using hls, rfl⟩]
    by_cases h20 : s.bit_index + 1 ≥ 20 <;>
      simp [h20, bitWrite, hst, HT600.ext_iff]

lemma fallingLogic_idle_pilot (s2 : HT600) (hst : s2.state = IDLE)
    (hcond : s2.period_L > s2.pilot_tick_min ∧
      HT600_IS_IN_RANGE s2.period_H s2.short_tick_min s2.short_tick_max) :
    fallingLogic s2 = { s2 with state := READING, bit_index := 0, half_symbol_read := false } := by
  unfold fallingLogic
  rw [if_pos hst, if_pos hcond]

lemma fallingLogic_idle_other (s2 : HT600) (hst : s2.state = IDLE)
    (hcond : ¬ (s2.period_L > s2.pilot_tick_min ∧
      HT600_IS_IN_RANGE s2.period_H s2.short_tick_min s2.short_tick_max)) :
    fallingLogic s2 = s2 := by
  unfold fallingLogic
  rw [if_pos hst, if_neg hcond]

lemma fallingLogic_classify0 (s2 : HT600) (hst : s2.state = READING)
    (hlo : HT600_IS_IN_RANGE s2.period_L s2.short_tick_min s2.short_tick_max)
    (hhi : HT600_IS_IN_RANGE s2.period_H s2.long_tick_min s2.long_tick_max) :
    fallingLogic s2 = decodeSymbol s2 false := by
  unfold fallingLogic
  rw [if_neg (by simp [hst]), if_pos ⟨hlo, hhi⟩]

lemma fallingLogic_classify1 (s2 : HT600) (hst : s2.state = READING)
    (hov : s2.short_tick_max < s2.long_tick_min)
    (hlo : HT600_IS_IN_RANGE s2.period_L s2.long_tick_min s2.long_tick_max)
    (hhi : HT600_IS_IN_RANGE s2.period_H s2.short_tick_min s2.short_tick_max) :
    fallingLogic s2 = decodeSymbol s2 true := by
  unfold fallingLogic
  have hnot : ¬ (HT600_IS_IN_RANGE s2.period_L s2.short_tick_min s2.short_tick_max ∧
      HT600_IS_IN_RANGE s2.period_H s2.long_tick_min s2.long_tick_max) := by
    rintro ⟨⟨-, h1⟩, -⟩
    have := hlo.1
    omega
  rw [if_neg (by simp [hst]), if_neg hnot, if_pos ⟨hlo, hhi⟩]

lemma fallingLogic_resync (s2 : HT600) (hst : s2.state = READING)
    (h1 : s2.short_tick_max < s2.period_L) (h2 : s2.long_tick_max < s2.period_L)
    (hpl : s2.period_L > s2.pilot_tick_min)
    (hhi : HT600_IS_IN_RANGE s2.period_H s2.short_tick_min s2.short_tick_max) :
    fallingLogic s2 = { s2 with state := READING, bit_index := 0, half_symbol_read := false } := by
  unfold fallingLogic
  rw [if_neg (by simp [hst]),
    if_neg (by rintro ⟨⟨-, hx⟩, -⟩; omega),
    if_neg (by rintro ⟨⟨-, hx⟩, -⟩; omega),
    if_pos ⟨hpl, hhi⟩]

lemma fallingLogic_invalid (s2 : HT600) (hst : s2.state = READING)
    (h1 : ¬ (HT600_IS_IN_RANGE s2.period_L s2.short_tick_min s2.short_tick_max ∧
      HT600_IS_IN_RANGE s2.period_H s2.long_tick_min s2.long_tick_max))
    (h2 : ¬ (HT600_IS_IN_RANGE s2.period_L s2.long_tick_min s2.long_tick_max ∧
      HT600_IS_IN_RANGE s2.period_H s2.short_tick_min s2.short_tick_max))
    (h3 : ¬ (s2.period_L > s2.pilot_tick_min ∧
      HT600_IS_IN_RANGE s2.period_H s2.short_tick_min s2.short_tick_max)) :
    fallingLogic s2 = { s2 with state := IDLE } := by
  unfold fallingLogic
  rw [if_neg (by simp [hst]), if_neg h1, if_neg h2, if_neg h3]

/-! ### Feeding one raw symbol (two edges) and one symbol pair (four edges) -/

lemma runEvents_pair_cons (s : HT600) (b : Bool) (t : ℕ) (es : List (Bool × ℕ)) :
    runEvents s ((b, t) :: es) = runEvents (processEvent s b t) es := rfl

lemma symWidth_bounds (c : Cfg) (hc : c.ok) (cs : Bool) (lo hi : ℕ)
    (hw : symWidthOk c cs lo hi) :
    c.noise_filter_tick ≤ lo ∧ lo ≤ 65535 ∧ c.noise_filter_tick ≤ hi ∧ hi ≤ 65535 := by
  obtain ⟨o1, o2, o3, o4, o5, o6, o7⟩ := hc
  cases cs <;> simp [symWidthOk, HT600_IS_IN_RANGE] at hw <;> omega

lemma sym_step (c : Cfg) (hc : c.ok) (s : HT600) (hcs : sameCfg c s)
    (hst : s.state = READING) (t lo hi : ℕ)
    (hlast : s.last_interrupt_tick = t % 4294967296)
    (cs : Bool) (hw : symWidthOk c cs lo hi) :
    runEvents s [(true, t + lo), (false, t + lo + hi)] =
      decodeSymbol { s with last_interrupt_tick := (t + lo + hi) % 4294967296,
                            period_L := lo, period_H := hi } cs := by
  obtain ⟨e1, e2, e3, e4, e5, e6⟩ := hcs
  obtain ⟨hnlo, hlo65, hnhi, hhi65⟩ := symWidth_bounds c hc cs lo hi hw
  have hcapl : capped lo = lo := by unfold capped; rw [if_neg (by omega)]
  have hcaph : capped hi = hi := by unfold capped; rw [if_neg (by omega)]
  have hsD : s.state ≠ DONE := by rw [hst]; exact fun hx => nomatch hx
  rw [runEvents_pair_cons, runEvents_pair_cons, runEvents_nil]
  rw [processEvent_rising s t lo hsD hlast (by omega) (by rw [e6]; omega)]
  rw [processEvent_falling _ (t + lo) hi (by show s.state ≠ DONE; exact hsD) rfl
    (by omega) (by show s.noise_filter_tick ≤ hi; rw [e6]; omega)]
  rw [hcapl, hcaph]
  cases cs
  · have hw2 : HT600_IS_IN_RANGE lo c.short_tick_min c.short_tick_max ∧
        HT600_IS_IN_RANGE hi c.long_tick_min c.long_tick_max := by
      simpa [symWidthOk] using hw
    exact fallingLogic_classify0 _ (by show s.state = READING; exact hst)
      (by show HT600_IS_IN_RANGE lo s.short_tick_min s.short_tick_max
          rw [e1, e2]; exact hw2.1)
      (by show HT600_IS_IN_RANGE hi s.long_tick_min s.long_tick_max
          rw [e3, e4]; exact hw2.2)
  · have hw2 : HT600_IS_IN_RANGE lo c.long_tick_min c.long_tick_max ∧
        HT600_IS_IN_RANGE hi c.short_tick_min c.short_tick_max := by
      simpa [symWidthOk] using hw
    exact fallingLogic_classify1 _ (by show s.state = READING; exact hst)
      (by show s.short_tick_max < s.long_tick_min; rw [e2, e3]; exact hc.2.1)
      (by show HT600_IS_IN_RANGE lo s.long_tick_min s.long_tick_max
          rw [e3, e4]; exact hw2.1)
      (by show HT600_IS_IN_RANGE hi s.short_tick_min s.short_tick_max
          rw [e1, e2]; exact hw2.2)

lemma pair_step_sync (c : Cfg) (hc : c.ok) (s : HT600) (j t : ℕ) (hmid : Mid c s j t)
    (hj : j < 2) (w1 w2 w3 w4 : ℕ)
    (hwa : symWidthOk c false w1 w2) (hwb : symWidthOk c true w3 w4) :
    runEvents s [(true, t + w1), (false, t + w1 + w2),
                 (true, t + w1 + w2 + w3), (false, t + w1 + w2 + w3 + w4)] =
      { s with half_symbol_read := false, last_symbol := false,
               bit_index := j + 1,
               last_interrupt_tick := (t + w1 + w2 + w3 + w4) % 4294967296,
               period_L := w3, period_H := w4 } := by
  obtain ⟨hcs, hst, hhalf, hbit, hlast⟩ := hmid
  rw [show [(true, t + w1), (false, t + w1 + w2), (true, t + w1 + w2 + w3),
      (false, t + w1 + w2 + w3 + w4)] =
    [(true, t + w1), (false, t + w1 + w2)] ++
      [(true, t + w1 + w2 + w3), (false, t + w1 + w2 + w3 + w4)] from rfl,
    runEvents_append]
  rw [sym_step c hc s hcs hst t w1 w2 hlast false hwa]
  rw [decode_first _ false (by show s.half_symbol_read = false; exact hhalf)]
  have hstep2 := sym_step c hc
    { s with last_interrupt_tick := (t + w1 + w2) % 4294967296,
             period_L := w1, period_H := w2,
             half_symbol_read := true, last_symbol := false }
    (by exact hcs) (by show s.state = READING; exact hst) (t + w1 + w2) w3 w4 rfl true hwb
  rw [show t + w1 + w2 + w3 = (t + w1 + w2) + w3 from rfl,
    show t + w1 + w2 + w3 + w4 = (t + w1 + w2) + w3 + w4 from rfl]
  rw [hstep2]
  rw [decode_sync _ (by show (true : Bool) = true; rfl)
    (by show s.state = READING; exact hst) (by show s.bit_index < 2; omega)
    (by show (false : Bool) = false; rfl)]
  subst hbit
  rfl

lemma pair_step_data (c : Cfg) (hc : c.ok) (s : HT600) (j t : ℕ) (hmid : Mid c s j t)
    (hj : ¬ j < 2) (a b : Bool) (hv : ¬ (a = false ∧ b = true)) (w1 w2 w3 w4 : ℕ)
    (hwa : symWidthOk c a w1 w2) (hwb : symWidthOk c b w3 w4) :
    runEvents s [(true, t + w1), (false, t + w1 + w2),
                 (true, t + w1 + w2 + w3), (false, t + w1 + w2 + w3 + w4)] =
      { s with half_symbol_read := false, last_symbol := a,
               buffer_HL := bitWrite s.buffer_HL j (a && b),
               buffer_Z := bitWrite s.buffer_Z j (a && !b),
               bit_index := j + 1,
               state := if j + 1 ≥ 20 then DONE else READING,
               last_interrupt_tick := (t + w1 + w2 + w3 + w4) % 4294967296,
               period_L := w3, period_H := w4 } := by
  obtain ⟨hcs, hst, hhalf, hbit, hlast⟩ := hmid
  rw [show [(true, t + w1), (false, t + w1 + w2), (true, t + w1 + w2 + w3),
      (false, t + w1 + w2 + w3 + w4)] =
    [(true, t + w1), (false, t + w1 + w2)] ++
      [(true, t + w1 + w2 + w3), (false, t + w1 + w2 + w3 + w4)] from rfl,
    runEvents_append]
  rw [sym_step c hc s hcs hst t w1 w2 hlast a hwa]
  rw [decode_first _ a (by show s.half_symbol_read = false; exact hhalf)]
  have hstep2 := sym_step c hc
    { s with last_interrupt_tick := (t + w1 + w2) % 4294967296,
             period_L := w1, period_H := w2,
             half_symbol_read := true, last_symbol := a }
    (by exact hcs) (by show s.state = READING; exact hst) (t + w1 + w2) w3 w4 rfl b hwb
  rw [show t + w1 + w2 + w3 = (t + w1 + w2) + w3 from rfl,
    show t + w1 + w2 + w3 + w4 = (t + w1 + w2) + w3 + w4 from rfl]
  rw [hstep2]
  rw [decode_data _ a b (by show (true : Bool) = true; rfl)
    (by show s.state = READING; exact hst) (by show ¬ s.bit_index < 2; omega)
    (by show a = a; rfl) hv]
  subst hbit
  rfl

/-! ### Properties of the encoded symbol pairs -/

lemma pairEdgeList_succ (wL wH : ℕ → ℕ) (n j t : ℕ) :
    pairEdgeList wL wH (n + 1) j t =
      (true, t + wL (2 * j)) :: (false, t + wL (2 * j) + wH (2 * j)) ::
      (true, t + wL (2 * j) + wH (2 * j) + wL (2 * j + 1)) ::
      (false, t + wL (2 * j) + wH (2 * j) + wL (2 * j + 1) + wH (2 * j + 1)) ::
      pairEdgeList wL wH n (j + 1)
        (t + wL (2 * j) + wH (2 * j) + wL (2 * j + 1) + wH (2 * j + 1)) := rfl

lemma pairSyms_sync (v m j : ℕ) (hj : j < 2) : pairSyms v m j = (false, true) := by
  unfold pairSyms
  rw [if_pos hj]

lemma pairSyms_valid (v m j : ℕ) (hj : ¬ j < 2) :
    ¬ ((pairSyms v m j).1 = false ∧ (pairSyms v m j).2 = true) := by
  unfold pairSyms
  rw [if_neg hj]
  by_cases hm : m.testBit (j - 2) <;> by_cases hv : v.testBit (j - 2) <;> simp [hm, hv]

lemma pairSyms_hl (v m j : ℕ) (hj : ¬ j < 2) :
    ((pairSyms v m j).1 && (pairSyms v m j).2) =
      (!m.testBit (j - 2) && v.testBit (j - 2)) := by
  unfold pairSyms
  rw [if_neg hj]
  by_cases hm : m.testBit (j - 2) <;> by_cases hv : v.testBit (j - 2) <;> simp [hm, hv]

lemma pairSyms_z (v m j : ℕ) (hj : ¬ j < 2) :
    ((pairSyms v m j).1 && !(pairSyms v m j).2) = m.testBit (j - 2) := by
  unfold pairSyms
  rw [if_neg hj]
  by_cases hm : m.testBit (j - 2) <;> by_cases hv : v.testBit (j - 2) <;> simp [hm, hv]

/-! ### Running the 20 symbol pairs of a frame -/

lemma run_pairs (c : Cfg) (hc : c.ok) (v m : ℕ) (wL wH : ℕ → ℕ)
    (hw : ∀ j, j < 20 →
      symWidthOk c (pairSyms v m j).1 (wL (2 * j)) (wH (2 * j)) ∧
      symWidthOk c (pairSyms v m j).2 (wL (2 * j + 1)) (wH (2 * j + 1))) :
    ∀ n j t s, j + n = 20 → 1 ≤ n → Mid c s j t →
      (runEvents s (pairEdgeList wL wH n j t)).state = DONE ∧
      (runEvents s (pairEdgeList wL wH n j t)).bit_index = 20 ∧
      sameCfg c (runEvents s (pairEdgeList wL wH n j t)) ∧
      (∀ idx, bufBit (runEvents s (pairEdgeList wL wH n j t)).buffer_HL idx =
        if j ≤ idx ∧ idx < 20 ∧ 2 ≤ idx
        then (!m.testBit (idx - 2) && v.testBit (idx - 2))
        else bufBit s.buffer_HL idx) ∧
      (∀ idx, bufBit (runEvents s (pairEdgeList wL wH n j t)).buffer_Z idx =
        if j ≤ idx ∧ idx < 20 ∧ 2 ≤ idx
        then m.testBit (idx - 2)
        else bufBit s.buffer_Z idx) := by
  intro n
  induction n with
  | zero => intro j t s h20 h1 _; omega
  | succ n ih =>
    intro j t s h20 h1 hmid
    obtain ⟨hw1, hw2⟩ := hw j (by omega)
    rw [pairEdgeList_succ,
      show ((true, t + wL (2 * j)) :: (false, t + wL (2 * j) + wH (2 * j)) ::
        (true, t + wL (2 * j) + wH (2 * j) + wL (2 * j + 1)) ::
        (false, t + wL (2 * j) + wH (2 * j) + wL (2 * j + 1) + wH (2 * j + 1)) ::
        pairEdgeList wL wH n (j + 1)
          (t + wL (2 * j) + wH (2 * j) + wL (2 * j + 1) + wH (2 * j + 1))) =
      [(true, t + wL (2 * j)), (false, t + wL (2 * j) + wH (2 * j)),
       (true, t + wL (2 * j) + wH (2 * j) + wL (2 * j + 1)),
       (false, t + wL (2 * j) + wH (2 * j) + wL (2 * j + 1) + wH (2 * j + 1))] ++
      pairEdgeList wL wH n (j + 1)
        (t + wL (2 * j) + wH (2 * j) + wL (2 * j + 1) + wH (2 * j + 1)) from rfl,
      runEvents_append]
    by_cases hj2 : j < 2
    · -- SYNC pair: no write, bit_index advances
      rw [pairSyms_sync v m j hj2] at hw1 hw2
      rw [pair_step_sync c hc s j t hmid hj2 _ _ _ _ hw1 hw2]
      have hn1 : 1 ≤ n := by omega
      have hmid' : Mid c
          { s with half_symbol_read := false, last_symbol := false,
                   bit_index := j + 1,
                   last_interrupt_tick :=
                     (t + wL (2 * j) + wH (2 * j) + wL (2 * j + 1) + wH (2 * j + 1)) % 4294967296,
                   period_L := wL (2 * j + 1), period_H := wH (2 * j + 1) }
          (j + 1) (t + wL (2 * j) + wH (2 * j) + wL (2 * j + 1) + wH (2 * j + 1)) := by
        exact ⟨hmid.1, hmid.2.1, rfl, rfl, rfl⟩
      obtain ⟨c1, c2, c3, c4, c5⟩ := ih (j + 1) _ _ (by omega) hn1 hmid'
      refine ⟨c1, c2, c3, ?_, ?_⟩
      · intro idx
        rw [c4 idx]
        by_cases hcase : j + 1 ≤ idx ∧ idx < 20 ∧ 2 ≤ idx
        · rw [if_pos hcase, if_pos (by omega)]
        · rw [if_neg hcase, if_neg (by omega)]
      · intro idx
        rw [c5 idx]
        by_cases hcase : j + 1 ≤ idx ∧ idx < 20 ∧ 2 ≤ idx
        · rw [if_pos hcase, if_pos (by omega)]
        · rw [if_neg hcase, if_neg (by omega)]
    · -- data pair: write at bit position j
      have hv := pairSyms_valid v m j hj2
      rw [pair_step_data c hc s j t hmid hj2 _ _ hv _ _ _ _ hw1 hw2]
      have ehl : ({ s with
            half_symbol_read := false,
            last_symbol := (pairSyms v m j).1,
            buffer_HL := bitWrite s.buffer_HL j ((pairSyms v m j).1 && (pairSyms v m j).2),
            buffer_Z := bitWrite s.buffer_Z j ((pairSyms v m j).1 && !(pairSyms v m j).2),
            bit_index := j + 1,
            state := if j + 1 ≥ 20 then DONE else READING,
            last_interrupt_tick :=
              (t + wL (2 * j) + wH (2 * j) + wL (2 * j + 1) + wH (2 * j + 1)) % 4294967296,
            period_L := wL (2 * j + 1),
            period_H := wH (2 * j + 1) } : HT600).buffer_HL
          = bitWrite s.buffer_HL j ((pairSyms v m j).1 && (pairSyms v m j).2) := rfl
      have ezz : ({ s with
            half_symbol_read := false,
            last_symbol := (pairSyms v m j).1,
            buffer_HL := bitWrite s.buffer_HL j ((pairSyms v m j).1 && (pairSyms v m j).2),
            buffer_Z := bitWrite s.buffer_Z j ((pairSyms v m j).1 && !(pairSyms v m j).2),
            bit_index := j + 1,
            state := if j + 1 ≥ 20 then DONE else READING,
            last_interrupt_tick :=
              (t + wL (2 * j) + wH (2 * j) + wL (2 * j + 1) + wH (2 * j + 1)) % 4294967296,
            period_L := wL (2 * j + 1),
            period_H := wH (2 * j + 1) } : HT600).buffer_Z
          = bitWrite s.buffer_Z j ((pairSyms v m j).1 && !(pairSyms v m j).2) := rfl
      rcases Nat.eq_zero_or_pos n with hn0 | hn1
      · -- last pair: j = 19, transition to DONE
        subst hn0
        have hj19 : j = 19 := by omega
        subst hj19
        rw [show pairEdgeList wL wH 0 (19 + 1)
            (t + wL (2 * 19) + wH (2 * 19) + wL (2 * 19 + 1) + wH (2 * 19 + 1)) = [] from rfl,
          runEvents_nil]
        refine ⟨by show (if 19 + 1 ≥ 20 then DONE else READING) = DONE; rw [if_pos (by omega)],
          rfl, ⟨hmid.1.1, hmid.1.2.1, hmid.1.2.2.1, hmid.1.2.2.2.1, hmid.1.2.2.2.2⟩, ?_, ?_⟩
        · intro idx
          rw [ehl, bufBit_bitWrite]
          by_cases hidx : idx = 19
          · subst hidx
            rw [if_pos rfl, if_pos (by omega), pairSyms_hl v m 19 (by omega)]
          · rw [if_neg hidx, if_neg (by omega)]
        · intro idx
          rw [ezz, bufBit_bitWrite]
          by_cases hidx : idx = 19
          · subst hidx
            rw [if_pos rfl, if_pos (by omega), pairSyms_z v m 19 (by omega)]
          · rw [if_neg hidx, if_neg (by omega)]
      · -- middle pair: stay READING and recurse
        have hmid' : Mid c
            { s with
              half_symbol_read := false,
              last_symbol := (pairSyms v m j).1,
              buffer_HL := bitWrite s.buffer_HL j ((pairSyms v m j).1 && (pairSyms v m j).2),
              buffer_Z := bitWrite s.buffer_Z j ((pairSyms v m j).1 && !(pairSyms v m j).2),
              bit_index := j + 1,
              state := if j + 1 ≥ 20 then DONE else READING,
              last_interrupt_tick :=
                (t + wL (2 * j) + wH (2 * j) + wL (2 * j + 1) + wH (2 * j + 1)) % 4294967296,
              period_L := wL (2 * j + 1),
              period_H := wH (2 * j + 1) }
            (j + 1) (t + wL (2 * j) + wH (2 * j) + wL (2 * j + 1) + wH (2 * j + 1)) := by
          refine ⟨hmid.1, ?_, rfl, rfl, rfl⟩
          show (if j + 1 ≥ 20 then DONE else READING) = READING
          rw [if_neg (by omega)]
        obtain ⟨c1, c2, c3, c4, c5⟩ := ih (j + 1) _ _ (by omega) hn1 hmid'
        refine ⟨c1, c2, c3, ?_, ?_⟩
        · intro idx
          rw [c4 idx]
          by_cases hcase : j + 1 ≤ idx ∧ idx < 20 ∧ 2 ≤ idx
          · rw [if_pos hcase, if_pos (by omega)]
          · rw [if_neg hcase, ehl, bufBit_bitWrite]
            by_cases hidx : idx = j
            · subst hidx
              rw [if_pos rfl, if_pos (by omega), pairSyms_hl v m idx hj2]
            · rw [if_neg hidx, if_neg (by omega)]
        · intro idx
          rw [c5 idx]
          by_cases hcase : j + 1 ≤ idx ∧ idx < 20 ∧ 2 ≤ idx
          · rw [if_pos hcase, if_pos (by omega)]
          · rw [if_neg hcase, ezz, bufBit_bitWrite]
            by_cases hidx : idx = j
            · subst hidx
              rw [if_pos rfl, if_pos (by omega), pairSyms_z v m idx hj2]
            · rw [if_neg hidx, if_neg (by omega)]

/-- After `k` further symbol pairs with `j + k < 20`, the decoder is still
mid-frame (state `READING`) with `bit_index = j + k`. -/
lemma run_pairs_mid (c : Cfg) (hc : c.ok) (v m : ℕ) (wL wH : ℕ → ℕ)
    (hw : ∀ j, j < 20 →
      symWidthOk c (pairSyms v m j).1 (wL (2 * j)) (wH (2 * j)) ∧
      symWidthOk c (pairSyms v m j).2 (wL (2 * j + 1)) (wH (2 * j + 1))) :
    ∀ k j t s, j + k < 20 → Mid c s j t →
      ∃ t', Mid c (runEvents s (pairEdgeList wL wH k j t)) (j + k) t' := by
  intro k
  induction k with
  | zero => intro j t s _ hmid; exact ⟨t, hmid⟩
  | succ k ih =>
    intro j t s hlt hmid
    obtain ⟨hw1, hw2⟩ := hw j (by omega)
    rw [pairEdgeList_succ,
      show ((true, t + wL (2 * j)) :: (false, t + wL (2 * j) + wH (2 * j)) ::
        (true, t + wL (2 * j) + wH (2 * j) + wL (2 * j + 1)) ::
        (false, t + wL (2 * j) + wH (2 * j) + wL (2 * j + 1) + wH (2 * j + 1)) ::
        pairEdgeList wL wH k (j + 1)
          (t + wL (2 * j) + wH (2 * j) + wL (2 * j + 1) + wH (2 * j + 1))) =
      [(true, t + wL (2 * j)), (false, t + wL (2 * j) + wH (2 * j)),
       (true, t + wL (2 * j) + wH (2 * j) + wL (2 * j + 1)),
       (false, t + wL (2 * j) + wH (2 * j) + wL (2 * j + 1) + wH (2 * j + 1))] ++
      pairEdgeList wL wH k (j + 1)
        (t + wL (2 * j) + wH (2 * j) + wL (2 * j + 1) + wH (2 * j + 1)) from rfl,
      runEvents_append]
    have harith : j + (k + 1) = (j + 1) + k := by omega
    rw [harith]
    by_cases hj2 : j < 2
    · rw [pairSyms_sync v m j hj2] at hw1 hw2
      rw [pair_step_sync c hc s j t hmid hj2 _ _ _ _ hw1 hw2]
      exact ih (j + 1) _ _ (by omega) ⟨hmid.1, hmid.2.1, rfl, rfl, rfl⟩
    · have hv := pairSyms_valid v m j hj2
      rw [pair_step_data c hc s j t hmid hj2 _ _ hv _ _ _ _ hw1 hw2]
      refine ih (j + 1) _ _ (by omega) ⟨hmid.1, ?_, rfl, rfl, rfl⟩
      show (if j + 1 ≥ 20 then DONE else READING) = READING
      rw [if_neg (by omega)]

/-- Processing the pilot (long low pulse, then a short high pulse) from the
post-construction state: the decoder enters `READING` at `bit_index = 0`. -/
lemma pilot_detect (c : Cfg) (hc : c.ok) (p h : ℕ)
    (hp : c.pilot_tick_min < p) (hp65 : p ≤ 65535)
    (hh : HT600_IS_IN_RANGE h c.short_tick_min c.short_tick_max) :
    runEvents (initState c) [(true, p), (false, p + h)] =
      { initState c with
        state := READING, bit_index := 0, half_symbol_read := false,
        last_interrupt_tick := (p + h) % 4294967296,
        period_L := p, period_H := h } := by
  obtain ⟨o1, o2, o3, o4, o5, o6, o7⟩ := hc
  have hsD : (initState c).state ≠ DONE := fun hx => nomatch hx
  have hcapp : capped p = p := by unfold capped; rw [if_neg (by omega)]
  have hcaph : capped h = h := by
    unfold capped
    rw [if_neg (by show ¬ h > 65535; obtain ⟨hh1, hh2⟩ := hh; omega)]
  obtain ⟨hh1, hh2⟩ := hh
  rw [runEvents_pair_cons, runEvents_pair_cons, runEvents_nil]
  have e1 : processEvent (initState c) true p =
      { initState c with last_interrupt_tick := p % 4294967296, period_L := p } := by
    unfold processEvent
    rw [if_neg hsD]
    simp only [u32_sub_mod_left]
    rw [show (initState c).last_interrupt_tick = 0 from rfl, u32_sub_zero p (by omega)]
    rw [if_neg (show ¬ p < (initState c).noise_filter_tick from by
      show ¬ p < c.noise_filter_tick; omega)]
    rw [hcapp]
    simp
  rw [e1]
  rw [processEvent_falling _ p h (by show IDLE ≠ DONE; exact fun hx => nomatch hx) rfl
    (by omega) (by show c.noise_filter_tick ≤ h; omega)]
  rw [hcaph]
  exact fallingLogic_idle_pilot _ rfl
    ⟨by show p > c.pilot_tick_min; omega,
     by show HT600_IS_IN_RANGE h c.short_tick_min c.short_tick_max; exact ⟨hh1, hh2⟩⟩

/-! ### Characterizing the result accessors bit by bit -/

lemma foldl_orBits (g : ℕ → Bool) (n q : ℕ) :
    (((List.range n).foldl (fun acc i => if g i then acc ||| (1 <<< i) else acc) 0)).testBit q
      = (decide (q < n) && g q) := by
  induction n with
  | zero => simp
  | succ n ih =>
    rw [List.range_succ, List.foldl_append]
    simp only [List.foldl_cons, List.foldl_nil]
    by_cases hq : q = n
    · subst hq
      by_cases hg : g q
      · rw [if_pos hg, Nat.testBit_or, ih, shiftLeft_one_eq, Nat.testBit_two_pow]
        simp [hg]
      · rw [if_neg hg, ih]
        simp [hg]
    · have hdec : decide (q < n + 1) = decide (q < n) :=
        decide_eq_decide.mpr (by omega)
      by_cases hg : g n
      · rw [if_pos hg, Nat.testBit_or, ih, shiftLeft_one_eq, Nat.testBit_two_pow]
        have : ¬ (n = q) := fun hx => hq hx.symm
        simp [this, hdec]
      · rw [if_neg hg, ih, hdec]

lemma get_HL_testBit (s : HT600) (z : Bool) (q : ℕ) :
    (get_HL_data s z).testBit q =
      (decide (q < 16) &&
        (if bufBit s.buffer_Z (q + 2) then z else bufBit s.buffer_HL (q + 2))) := by
  unfold get_HL_data
  have hfun : (fun (result i : ℕ) =>
      let internal_idx := i + 2
      let byte_idx := internal_idx >>> 3
      let bit_mask := 1 <<< (internal_idx &&& 7)
      let bit_hl : Bool := s.buffer_HL byte_idx &&& bit_mask != 0
      let bit_z : Bool := s.buffer_Z byte_idx &&& bit_mask != 0
      if bit_z then (if z then result ||| (1 <<< i) else result)
      else (if bit_hl then result ||| (1 <<< i) else result)) =
      (fun (result i : ℕ) =>
        if (if bufBit s.buffer_Z (i + 2) then z else bufBit s.buffer_HL (i + 2))
        then result ||| (1 <<< i) else result) := by
    funext r i
    simp only [and_mask_ne, bufBit]
    by_cases hz : (s.buffer_Z ((i + 2) >>> 3)).testBit ((i + 2) &&& 7) <;>
      by_cases hl : (s.buffer_HL ((i + 2) >>> 3)).testBit ((i + 2) &&& 7) <;>
      simp [hz, hl]
  rw [hfun, foldl_orBits]

lemma get_Z_testBit (s : HT600) (z : Bool) (q : ℕ) :
    (get_Z_data s z).testBit q =
      (decide (q < 16) && !(bufBit s.buffer_Z (q + 2) ^^ z)) := by
  unfold get_Z_data
  have hfun : (fun (result i : ℕ) =>
      let internal_idx := i + 2
      let byte_idx := internal_idx >>> 3
      let bit_mask := 1 <<< (internal_idx &&& 7)
      let is_z : Bool := s.buffer_Z byte_idx &&& bit_mask != 0
      if !(is_z ^^ z) then result ||| (1 <<< i) else result) =
      (fun (result i : ℕ) =>
        if !(bufBit s.buffer_Z (i + 2) ^^ z)
        then result ||| (1 <<< i) else result) := by
    funext r i
    simp only [and_mask_ne, bufBit]
  rw [hfun, foldl_orBits]

lemma testBit_ge_16 (x q : ℕ) (hx : x < 65536) (hq : 16 ≤ q) : x.testBit q = false := by
  apply Nat.testBit_eq_false_of_lt
  calc x < 65536 := hx
    _ = 2 ^ 16 := by norm_num
    _ ≤ 2 ^ q := Nat.pow_le_pow_right (by norm_num) hq

lemma testBit_65535 (q : ℕ) : (65535 : ℕ).testBit q = decide (q < 16) := by
  rw [show (65535 : ℕ) = 2 ^ 16 - 1 from by norm_num, Nat.testBit_two_pow_sub_one]

/-- The four accessor results on a decoder whose payload bits 0..15 hold the
value `v` with Z-mask `m`. -/
lemma accessor_values (r : HT600) (v m : ℕ) (hv : v < 65536) (hm : m < 65536)
    (hHL : ∀ q, q < 16 → bufBit r.buffer_HL (q + 2) = (!m.testBit q && v.testBit q))
    (hZ : ∀ q, q < 16 → bufBit r.buffer_Z (q + 2) = m.testBit q) :
    get_HL_data r false = v &&& (65535 ^^^ m) ∧
    get_HL_data r true = v ||| m ∧
    get_Z_data r true = m ∧
    get_Z_data r false = 65535 ^^^ m := by
  refine ⟨?_, ?_, ?_, ?_⟩ <;> apply Nat.eq_of_testBit_eq <;> intro q
  · rw [get_HL_testBit, Nat.testBit_and, Nat.testBit_xor, testBit_65535]
    by_cases hq : q < 16
    · rw [hZ q hq, hHL q hq]
      cases hm2 : m.testBit q <;> cases hv2 : v.testBit q <;> simp [hq]
    · simp [hq, testBit_ge_16 v q hv (by omega)]
  · rw [get_HL_testBit, Nat.testBit_or]
    by_cases hq : q < 16
    · rw [hZ q hq, hHL q hq]
      cases hm2 : m.testBit q <;> cases hv2 : v.testBit q <;> simp [hq]
    · simp [hq, testBit_ge_16 v q hv (by omega), testBit_ge_16 m q hm (by omega)]
  · rw [get_Z_testBit]
    by_cases hq : q < 16
    · rw [hZ q hq]
      cases hm2 : m.testBit q <;> simp [hq]
    · simp [hq, testBit_ge_16 m q hm (by omega)]
  · rw [get_Z_testBit, Nat.testBit_xor, testBit_65535]
    by_cases hq : q < 16
    · rw [hZ q hq]
      cases hm2 : m.testBit q <;> simp [hq]
    · simp [hq, testBit_ge_16 m q hm (by omega)]

/-! ### Full-frame round trip -/

lemma frame_roundtrip (c : Cfg) (hc : c.ok) (v m : ℕ) (hv : v < 65536) (hm : m < 65536)
    (p h : ℕ) (hp : c.pilot_tick_min < p) (hp65 : p ≤ 65535)
    (hh : HT600_IS_IN_RANGE h c.short_tick_min c.short_tick_max)
    (wL wH : ℕ → ℕ)
    (hw : ∀ j, j < 20 →
      symWidthOk c (pairSyms v m j).1 (wL (2 * j)) (wH (2 * j)) ∧
      symWidthOk c (pairSyms v m j).2 (wL (2 * j + 1)) (wH (2 * j + 1))) :
    (runEvents (initState c) (frameEdges p h wL wH)).state = DONE ∧
    (runEvents (initState c) (frameEdges p h wL wH)).bit_index = 20 ∧
    get_HL_data (runEvents (initState c) (frameEdges p h wL wH)) false = v &&& (65535 ^^^ m) ∧
    get_HL_data (runEvents (initState c) (frameEdges p h wL wH)) true = v ||| m ∧
    get_Z_data (runEvents (initState c) (frameEdges p h wL wH)) true = m ∧
    get_Z_data (runEvents (initState c) (frameEdges p h wL wH)) false = 65535 ^^^ m := by
  rw [show frameEdges p h wL wH =
      [(true, p), (false, p + h)] ++ pairEdgeList wL wH 20 0 (p + h) from rfl,
    runEvents_append, pilot_detect c hc p h hp hp65 hh]
  have hmid : Mid c
      { initState c with
        state := READING, bit_index := 0, half_symbol_read := false,
        last_interrupt_tick := (p + h) % 4294967296,
        period_L := p, period_H := h } 0 (p + h) :=
    ⟨⟨rfl, rfl, rfl, rfl, rfl, rfl⟩, rfl, rfl, rfl, rfl⟩
  obtain ⟨c1, c2, c3, c4, c5⟩ :=
    run_pairs c hc v m wL wH hw 20 0 (p + h) _ rfl (by omega) hmid
  have hHL : ∀ q, q < 16 →
      bufBit (runEvents
        { initState c with
          state := READING, bit_index := 0, half_symbol_read := false,
          last_interrupt_tick := (p + h) % 4294967296,
          period_L := p, period_H := h } (pairEdgeList wL wH 20 0 (p + h))).buffer_HL (q + 2)
        = (!m.testBit q && v.testBit q) := by
    intro q hq
    rw [c4 (q + 2), if_pos ⟨by omega, by omega, by omega⟩,
      show q + 2 - 2 = q from by omega]
  have hZ : ∀ q, q < 16 →
      bufBit (runEvents
        { initState c with
          state := READING, bit_index := 0, half_symbol_read := false,
          last_interrupt_tick := (p + h) % 4294967296,
          period_L := p, period_H := h } (pairEdgeList wL wH 20 0 (p + h))).buffer_Z (q + 2)
        = m.testBit q := by
    intro q hq
    rw [c5 (q + 2), if_pos ⟨by omega, by omega, by omega⟩,
      show q + 2 - 2 = q from by omega]
  obtain ⟨a1, a2, a3, a4⟩ := accessor_values _ v m hv hm hHL hZ
  exact ⟨c1, c2, a1, a2, a3, a4⟩

/-- A falling edge in `READING` with a stored over-pilot low period and a
short high period restarts reading at `bit_index = 0` without leaving
`READING`. -/
lemma resync_step (c : Cfg) (hc : c.ok) (s : HT600) (hcs : sameCfg c s)
    (hst : s.state = READING) (t d : ℕ)
    (hlast : s.last_interrupt_tick = t % 4294967296) (hd : d < 4294967296)
    (hnf : c.noise_filter_tick ≤ d)
    (hpl : c.pilot_tick_min < s.period_L)
    (hh : HT600_IS_IN_RANGE (capped d) c.short_tick_min c.short_tick_max) :
    processEvent s false (t + d) =
      { s with state := READING, bit_index := 0, half_symbol_read := false,
               last_interrupt_tick := (t + d) % 4294967296, period_H := capped d } := by
  obtain ⟨e1, e2, e3, e4, e5, e6⟩ := hcs
  obtain ⟨o1, o2, o3, o4, o5, o6, o7⟩ := hc
  rw [processEvent_falling s t d (by rw [hst]; exact fun hx => nomatch hx) hlast hd
    (by rw [e6]; omega)]
  exact fallingLogic_resync _ (by show s.state = READING; exact hst)
    (by show s.short_tick_max < s.period_L; omega)
    (by show s.long_tick_max < s.period_L; omega)
    (by show s.period_L > s.pilot_tick_min; omega)
    (by show HT600_IS_IN_RANGE (capped d) s.short_tick_min s.short_tick_max
        rw [e1, e2]; exact hh)


/-! ### Anatomy of the event processor: an exhaustive case description of
every result shape, used to prove the safety invariant. -/

lemma decode_sync_fail (s : HT600) (cs : Bool) (h : s.half_symbol_read = true)
    (hst : s.state = READING) (hj : s.bit_index < 2)
    (hbad : ¬ (s.last_symbol = false ∧ cs = true)) :
    decodeSymbol s cs = { s with half_symbol_read := false, state := IDLE } := by
  unfold decodeSymbol
  rw [if_neg (by simp [h]), if_pos (by simpa using hst), if_pos (by simpa using hj),
    if_neg (by simpa using hbad)]

lemma decode_data_fail (s : HT600) (cs : Bool) (h : s.half_symbol_read = true)
    (hst : s.state = READING) (hj : ¬ s.bit_index < 2)
    (hbad : s.last_symbol = false ∧ cs = true) :
    decodeSymbol s cs = { s with half_symbol_read := false, state := IDLE } := by
  obtain ⟨hl, hcs⟩ := hbad
  subst hcs
  unfold decodeSymbol
  rw [if_neg (by simp [h]), if_pos (by simpa using hst), if_neg (by simpa using hj),
    if_neg (by simp [hl]), if_neg (by simp [hl]), if_neg (by simp [hl])]

lemma decode_notReading (s : HT600) (cs : Bool) (h : s.half_symbol_read = true)
    (hst : ¬ s.state = READING) :
    decodeSymbol s cs = { s with half_symbol_read := false } := by
  unfold decodeSymbol
  rw [if_neg (by simp [h]), if_neg (by simpa using hst)]

lemma decodeSymbol_anatomy (s : HT600) (cs : Bool) :
    decodeSymbol s cs = { s with half_symbol_read := true, last_symbol := cs } ∨
    decodeSymbol s cs = { s with half_symbol_read := false } ∨
    (s.bit_index < 2 ∧
      decodeSymbol s cs = { s with half_symbol_read := false, bit_index := s.bit_index + 1 }) ∨
    (s.state = READING ∧
      decodeSymbol s cs = { s with half_symbol_read := false, state := IDLE }) ∨
    (s.state = READING ∧ ¬ s.bit_index < 2 ∧ ∃ vHL vZ,
      decodeSymbol s cs = { s with
        half_symbol_read := false,
        buffer_HL := updByte s.buffer_HL (s.bit_index >>> 3) vHL,
        buffer_Z := updByte s.buffer_Z (s.bit_index >>> 3) vZ,
        bit_index := s.bit_index + 1,
        state := if s.bit_index + 1 ≥ 20 then DONE else s.state }) := by
  by_cases h1 : s.half_symbol_read = false
  · exact Or.inl (decode_first s cs h1)
  · have h1' : s.half_symbol_read = true := by
      revert h1; cases s.half_symbol_read <;> simp
    by_cases h2 : s.state = READING
    · by_cases h3 : s.bit_index < 2
      · by_cases h4 : s.last_symbol = false ∧ cs = true
        · obtain ⟨hl, hcs⟩ := h4
          subst hcs
          exact Or.inr (Or.inr (Or.inl ⟨h3, decode_sync s h1' h2 h3 hl⟩))
        · exact Or.inr (Or.inr (Or.inr (Or.inl ⟨h2, decode_sync_fail s cs h1' h2 h3 h4⟩)))
      · by_cases h4 : s.last_symbol = false ∧ cs = true
        · exact Or.inr (Or.inr (Or.inr (Or.inl ⟨h2, decode_data_fail s cs h1' h2 h3 h4⟩)))
        · refine Or.inr (Or.inr (Or.inr (Or.inr ⟨h2, h3,
            (if (s.last_symbol && cs)
             then s.buffer_HL (s.bit_index >>> 3) ||| (1 <<< (s.bit_index &&& 7))
             else s.buffer_HL (s.bit_index >>> 3) &&& (255 ^^^ (1 <<< (s.bit_index &&& 7)))),
            (if (s.last_symbol && !cs)
             then s.buffer_Z (s.bit_index >>> 3) ||| (1 <<< (s.bit_index &&& 7))
             else s.buffer_Z (s.bit_index >>> 3) &&& (255 ^^^ (1 <<< (s.bit_index &&& 7)))),
            ?_⟩)))
          rw [decode_data s s.last_symbol cs h1' h2 h3 rfl h4]
          rw [show (if s.bit_index + 1 ≥ 20 then DONE else s.state)
              = (if s.bit_index + 1 ≥ 20 then DONE else READING) from by rw [h2]]
          simp only [bitWrite]
    · exact Or.inr (Or.inl (decode_notReading s cs h1' h2))

lemma fallingLogic_anatomy (s2 : HT600) :
    fallingLogic s2 = { s2 with state := READING, bit_index := 0, half_symbol_read := false } ∨
    fallingLogic s2 = s2 ∨
    (s2.state ≠ IDLE ∧ fallingLogic s2 = { s2 with state := IDLE }) ∨
    (∃ cs, fallingLogic s2 = decodeSymbol s2 cs) := by
  unfold fallingLogic
  split_ifs with g1 g2 g3 g4 g5
  · exact Or.inl rfl
  · exact Or.inr (Or.inl rfl)
  · exact Or.inr (Or.inr (Or.inr ⟨false, rfl⟩))
  · exact Or.inr (Or.inr (Or.inr ⟨true, rfl⟩))
  · exact Or.inl rfl
  · exact Or.inr (Or.inr (Or.inl ⟨g1, rfl⟩))

lemma processEvent_anatomy (s : HT600) (b : Bool) (t : ℕ) :
    ((s.state = DONE ∨ u32_sub t s.last_interrupt_tick < s.noise_filter_tick) ∧
      processEvent s b t = s) ∨
    (s.state ≠ DONE ∧ processEvent s b t =
      { s with last_interrupt_tick := t % 4294967296,
               period_L := capped (u32_sub t s.last_interrupt_tick) }) ∨
    (s.state ≠ DONE ∧ processEvent s b t =
      fallingLogic { s with last_interrupt_tick := t % 4294967296,
                            period_H := capped (u32_sub t s.last_interrupt_tick) }) := by
  simp only [processEvent, u32_sub_mod_left]
  split_ifs with g1 g2 g3
  · exact Or.inl ⟨Or.inl g1, rfl⟩
  · exact Or.inl ⟨Or.inr g2, rfl⟩
  · exact Or.inr (Or.inl ⟨g1, rfl⟩)
  · exact Or.inr (Or.inr ⟨g1, rfl⟩)

lemma decodeSymbol_last (s : HT600) (cs : Bool) :
    (decodeSymbol s cs).last_interrupt_tick = s.last_interrupt_tick := by
  rcases decodeSymbol_anatomy s cs with h | h | ⟨-, h⟩ | ⟨-, h⟩ | ⟨-, -, vHL, vZ, h⟩ <;>
    rw [h]

lemma fallingLogic_last (s2 : HT600) :
    (fallingLogic s2).last_interrupt_tick = s2.last_interrupt_tick := by
  rcases fallingLogic_anatomy s2 with h | h | ⟨-, h⟩ | ⟨cs, h⟩ <;> rw [h]
  exact decodeSymbol_last s2 cs

lemma processEvent_last (s : HT600) (b : Bool) (t : ℕ) (h : s.state ≠ DONE)
    (hno : ¬ u32_sub t s.last_interrupt_tick < s.noise_filter_tick) :
    (processEvent s b t).last_interrupt_tick = t % 4294967296 := by
  rcases processEvent_anatomy s b t with ⟨hcond, he⟩ | ⟨-, he⟩ | ⟨-, he⟩
  · rcases hcond with hD | hn
    · exact absurd hD h
    · exact absurd hn hno
  · rw [he]
  · rw [he, fallingLogic_last]

lemma decodeSymbol_cfg (s : HT600) (cs : Bool) (c : Cfg) (hcs : sameCfg c s) :
    sameCfg c (decodeSymbol s cs) := by
  rcases decodeSymbol_anatomy s cs with h | h | ⟨-, h⟩ | ⟨-, h⟩ | ⟨-, -, vHL, vZ, h⟩ <;>
    rw [h] <;> exact hcs

lemma fallingLogic_cfg (s2 : HT600) (c : Cfg) (hcs : sameCfg c s2) :
    sameCfg c (fallingLogic s2) := by
  rcases fallingLogic_anatomy s2 with h | h | ⟨-, h⟩ | ⟨cs, h⟩ <;> rw [h] <;>
    first
    | exact hcs
    | exact decodeSymbol_cfg s2 cs c hcs

lemma processEvent_cfg (s : HT600) (b : Bool) (t : ℕ) (c : Cfg) (hcs : sameCfg c s) :
    sameCfg c (processEvent s b t) := by
  rcases processEvent_anatomy s b t with ⟨-, he⟩ | ⟨-, he⟩ | ⟨-, he⟩ <;> rw [he]
  · exact hcs
  · exact hcs
  · exact fallingLogic_cfg _ c hcs

lemma decodeSymbol_bit_state (s : HT600) (cs : Bool) (hb20 : s.bit_index ≤ 20)
    (hbD : s.state ≠ DONE → s.bit_index ≤ 19) :
    (decodeSymbol s cs).bit_index ≤ 20 ∧
    ((decodeSymbol s cs).state ≠ DONE → (decodeSymbol s cs).bit_index ≤ 19) := by
  rcases decodeSymbol_anatomy s cs with h | h | ⟨hj, h⟩ | ⟨hst, h⟩ | ⟨hst, hj, vHL, vZ, h⟩ <;>
    rw [h]
  · exact ⟨hb20, hbD⟩
  · exact ⟨hb20, hbD⟩
  · exact ⟨by show s.bit_index + 1 ≤ 20; omega,
      fun _ => by show s.bit_index + 1 ≤ 19; omega⟩
  · refine ⟨hb20, fun _ => ?_⟩
    show s.bit_index ≤ 19
    exact hbD (by rw [hst]; exact fun hx => nomatch hx)
  · have h19 : s.bit_index ≤ 19 := hbD (by rw [hst]; exact fun hx => nomatch hx)
    refine ⟨by show s.bit_index + 1 ≤ 20; omega, fun h' => ?_⟩
    show s.bit_index + 1 ≤ 19
    by_cases h20 : s.bit_index + 1 ≥ 20
    · exfalso
      apply h'
      show (if s.bit_index + 1 ≥ 20 then DONE else s.state) = DONE
      rw [if_pos h20]
    · omega

lemma fallingLogic_bit_state (s2 : HT600) (hD : s2.state ≠ DONE) (hb20 : s2.bit_index ≤ 20)
    (hbD : s2.state ≠ DONE → s2.bit_index ≤ 19) :
    (fallingLogic s2).bit_index ≤ 20 ∧
    ((fallingLogic s2).state ≠ DONE → (fallingLogic s2).bit_index ≤ 19) := by
  rcases fallingLogic_anatomy s2 with h | h | ⟨-, h⟩ | ⟨cs, h⟩ <;> rw [h]
  · exact ⟨by show (0 : ℕ) ≤ 20; omega, fun _ => by show (0 : ℕ) ≤ 19; omega⟩
  · exact ⟨hb20, hbD⟩
  · exact ⟨hb20, fun _ => by show s2.bit_index ≤ 19; exact hbD hD⟩
  · exact decodeSymbol_bit_state s2 cs hb20 hbD

lemma processEvent_bit_state (s : HT600) (b : Bool) (t : ℕ)
    (hb20 : s.bit_index ≤ 20) (hbD : s.state ≠ DONE → s.bit_index ≤ 19) :
    (processEvent s b t).bit_index ≤ 20 ∧
    ((processEvent s b t).state ≠ DONE → (processEvent s b t).bit_index ≤ 19) := by
  rcases processEvent_anatomy s b t with ⟨-, he⟩ | ⟨-, he⟩ | ⟨hD, he⟩ <;> rw [he]
  · exact ⟨hb20, hbD⟩
  · exact ⟨hb20, hbD⟩
  · exact fallingLogic_bit_state _ hD hb20 hbD

lemma decodeSymbol_buffers (s : HT600) (cs : Bool) (i : ℕ)
    (hne : ¬ ((decodeSymbol s cs).buffer_HL i = s.buffer_HL i ∧
              (decodeSymbol s cs).buffer_Z i = s.buffer_Z i)) :
    s.state = READING ∧ 2 ≤ s.bit_index ∧ i = s.bit_index >>> 3 := by
  rcases decodeSymbol_anatomy s cs with h | h | ⟨hj, h⟩ | ⟨hst, h⟩ | ⟨hst, hj, vHL, vZ, h⟩ <;>
    rw [h] at hne
  · exact absurd ⟨rfl, rfl⟩ hne
  · exact absurd ⟨rfl, rfl⟩ hne
  · exact absurd ⟨rfl, rfl⟩ hne
  · exact absurd ⟨rfl, rfl⟩ hne
  · refine ⟨hst, by omega, ?_⟩
    by_cases hi : i = s.bit_index >>> 3
    · exact hi
    · exfalso
      apply hne
      constructor
      · show updByte s.buffer_HL (s.bit_index >>> 3) vHL i = s.buffer_HL i
        unfold updByte
        rw [if_neg hi]
      · show updByte s.buffer_Z (s.bit_index >>> 3) vZ i = s.buffer_Z i
        unfold updByte
        rw [if_neg hi]

lemma fallingLogic_buffers (s2 : HT600) (i : ℕ)
    (hne : ¬ ((fallingLogic s2).buffer_HL i = s2.buffer_HL i ∧
              (fallingLogic s2).buffer_Z i = s2.buffer_Z i)) :
    s2.state = READING ∧ 2 ≤ s2.bit_index ∧ i = s2.bit_index >>> 3 := by
  rcases fallingLogic_anatomy s2 with h | h | ⟨-, h⟩ | ⟨cs, h⟩ <;> rw [h] at hne
  · exact absurd ⟨rfl, rfl⟩ hne
  · exact absurd ⟨rfl, rfl⟩ hne
  · exact absurd ⟨rfl, rfl⟩ hne
  · exact decodeSymbol_buffers s2 cs i hne

lemma processEvent_buffers (s : HT600) (b : Bool) (t : ℕ) (i : ℕ)
    (hne : ¬ ((processEvent s b t).buffer_HL i = s.buffer_HL i ∧
              (processEvent s b t).buffer_Z i = s.buffer_Z i)) :
    s.state = READING ∧ 2 ≤ s.bit_index ∧ i = s.bit_index >>> 3 := by
  rcases processEvent_anatomy s b t with ⟨-, he⟩ | ⟨-, he⟩ | ⟨-, he⟩ <;> rw [he] at hne
  · exact absurd ⟨rfl, rfl⟩ hne
  · exact absurd ⟨rfl, rfl⟩ hne
  · exact fallingLogic_buffers
      { s with last_interrupt_tick := t % 4294967296,
               period_H := capped (u32_sub t s.last_interrupt_tick) } i hne

/-! ### The reachable-state invariant -/

lemma rinv_init (c : Cfg) : ReachInv c (initState c) :=
  ⟨⟨rfl, rfl, rfl, rfl, rfl, rfl⟩, fun _ _ => ⟨rfl, rfl⟩,
   by show (0 : ℕ) ≤ 20; omega, fun _ => by show (0 : ℕ) ≤ 19; omega⟩

lemma rinv_step (c : Cfg) (s : HT600) (b : Bool) (t : ℕ) (hinv : ReachInv c s) :
    ReachInv c (processEvent s b t) := by
  obtain ⟨hcs, hbuf, hb20, hbD⟩ := hinv
  obtain ⟨hb20', hbD'⟩ := processEvent_bit_state s b t hb20 hbD
  refine ⟨processEvent_cfg s b t c hcs, ?_, hb20', hbD'⟩
  intro i hi
  by_cases hch : (processEvent s b t).buffer_HL i = s.buffer_HL i ∧
      (processEvent s b t).buffer_Z i = s.buffer_Z i
  · rw [hch.1, hch.2]
    exact hbuf i hi
  · exfalso
    obtain ⟨hst, -, hieq⟩ := processEvent_buffers s b t i hch
    have h19 : s.bit_index ≤ 19 := hbD (by rw [hst]; exact fun hx => nomatch hx)
    rw [shiftRight_three_eq] at hieq
    omega

lemma rinv_reset (c : Cfg) (s : HT600) (hinv : ReachInv c s) : ReachInv c s.reset := by
  obtain ⟨hcs, hbuf, -, -⟩ := hinv
  refine ⟨hcs, ?_, by show (0 : ℕ) ≤ 20; omega, fun _ => by show (0 : ℕ) ≤ 19; omega⟩
  intro i hi
  constructor
  · show (if i < 3 then 0 else s.buffer_HL i) = 0
    rw [if_neg (by omega)]
    exact (hbuf i hi).1
  · show (if i < 3 then 0 else s.buffer_Z i) = 0
    rw [if_neg (by omega)]
    exact (hbuf i hi).2

lemma reach_inv (c : Cfg) (s : HT600) (hr : Reachable c s) : ReachInv c s := by
  induction hr with
  | init => exact rinv_init c
  | step s b t _ ih => exact rinv_step c s b t ih
  | rst s _ ih => exact rinv_reset c s ih

/-- `reset()` is idempotent. -/
lemma reset_reset (s : HT600) : s.reset.reset = s.reset := by
  apply HT600.ext <;> try rfl
  all_goals
    funext i
    show (if i < 3 then 0 else (if i < 3 then 0 else _)) = (if i < 3 then 0 else _)
    by_cases hi : i < 3 <;> simp [hi]

/-- From any reachable state, `reset()` restores exactly the
post-construction state. -/
lemma reset_eq_init (c : Cfg) (s : HT600) (hr : Reachable c s) :
    s.reset = initState c := by
  obtain ⟨⟨e1, e2, e3, e4, e5, e6⟩, hbuf, -, -⟩ := reach_inv c s hr
  apply HT600.ext
  · exact e1
  · exact e2
  · exact e3
  · exact e4
  · exact e5
  · exact e6
  · rfl
  · funext i
    show (if i < 3 then 0 else s.buffer_HL i) = 0
    by_cases hi : i < 3
    · rw [if_pos hi]
    · rw [if_neg hi]
      exact (hbuf i (by omega)).1
  · funext i
    show (if i < 3 then 0 else s.buffer_Z i) = 0
    by_cases hi : i < 3
    · rw [if_pos hi]
    · rw [if_neg hi]
      exact (hbuf i (by omega)).2
  · rfl
  · rfl
  · rfl
  · rfl
  · rfl
  · rfl

/-! ### Claim theorems -/

set_option maxRecDepth 100000

lemma pairEdgeList_length (wL wH : ℕ → ℕ) :
    ∀ n j t, (pairEdgeList wL wH n j t).length = 4 * n := by
  intro n
  induction n with
  | zero => intro j t; rfl
  | succ n ih =>
    intro j t
    rw [pairEdgeList_succ]
    simp only [List.length_cons, ih]
    omega

/-- C1: Round-trip — from the post-construction Idle state with well-ordered
thresholds, feeding the edge sequence of a valid frame carrying the 16-bit
value `v` and Z-mask `m` (pilot low > pilot_min, short high, two SYNC pairs,
18 payload pairs with pair (1,0) at the Z positions and (1,1)/(0,0) for the
value bits, all widths in their tolerance windows, all deltas at or above the
noise floor) drives the decoder to `DONE`, after which `get_HL_data z_fill`
returns `v` with the positions of `m` replaced by `z_fill` (for both
polarities), `get_Z_data true` returns `m` and `get_Z_data false` its 16-bit
complement. -/
theorem round_trip (c : Cfg) (hc : c.ok) (v m : ℕ) (hv : v < 65536) (hm : m < 65536)
    (p h : ℕ) (hp : c.pilot_tick_min < p) (hp65 : p ≤ 65535)
    (hh : HT600_IS_IN_RANGE h c.short_tick_min c.short_tick_max)
    (wL wH : ℕ → ℕ)
    (hw : ∀ j, j < 20 →
      symWidthOk c (pairSyms v m j).1 (wL (2 * j)) (wH (2 * j)) ∧
      symWidthOk c (pairSyms v m j).2 (wL (2 * j + 1)) (wH (2 * j + 1))) :
    (runEvents (initState c) (frameEdges p h wL wH)).state = DONE ∧
    get_HL_data (runEvents (initState c) (frameEdges p h wL wH)) false =
      v &&& (65535 ^^^ m) ∧
    get_HL_data (runEvents (initState c) (frameEdges p h wL wH)) true = v ||| m ∧
    get_Z_data (runEvents (initState c) (frameEdges p h wL wH)) true = m ∧
    get_Z_data (runEvents (initState c) (frameEdges p h wL wH)) false = 65535 ^^^ m := by
  obtain ⟨c1, -, a1, a2, a3, a4⟩ := frame_roundtrip c hc v m hv hm p h hp hp65 hh wL wH hw
  exact ⟨c1, a1, a2, a3, a4⟩

theorem round_trip_witness :
    tcfg.ok ∧
    (43981 : ℕ) < 65536 ∧ (528 : ℕ) < 65536 ∧
    tcfg.pilot_tick_min < 4000 ∧ (4000 : ℕ) ≤ 65535 ∧
    HT600_IS_IN_RANGE 130 tcfg.short_tick_min tcfg.short_tick_max ∧
    ((runEvents (initState tcfg)
        (frameEdges 4000 130 (stdWL 43981 528) (stdWH 43981 528))).state = DONE ∧
      get_HL_data (runEvents (initState tcfg)
        (frameEdges 4000 130 (stdWL 43981 528) (stdWH 43981 528))) false =
        43981 &&& (65535 ^^^ 528) ∧
      get_HL_data (runEvents (initState tcfg)
        (frameEdges 4000 130 (stdWL 43981 528) (stdWH 43981 528))) true = 43981 ||| 528 ∧
      get_Z_data (runEvents (initState tcfg)
        (frameEdges 4000 130 (stdWL 43981 528) (stdWH 43981 528))) true = 528 ∧
      get_Z_data (runEvents (initState tcfg)
        (frameEdges 4000 130 (stdWL 43981 528) (stdWH 43981 528))) false = 65535 ^^^ 528) :=
  ⟨by decide, by decide, by decide, by decide, by decide, by decide,
   round_trip tcfg (by decide) 43981 528 (by decide) (by decide) 4000 130
     (by decide) (by decide) (by decide) (stdWL 43981 528) (stdWH 43981 528) (by decide)⟩

/-- C2 counterexample: the claim counts "40 edges after the pilot", but 20
symbol pairs take 80 pin transitions; after the pilot plus a 40-transition
prefix of a valid frame the decoder is still `READING` (not `DONE`), while
the full frame does reach `DONE`. -/
theorem frame_completion_cex :
    (pairEdgeList (stdWL 43981 528) (stdWH 43981 528) 10 0 4130).length = 40 ∧
    frameEdges 4000 130 (stdWL 43981 528) (stdWH 43981 528) =
      ((true, 4000) :: (false, 4130) ::
        pairEdgeList (stdWL 43981 528) (stdWH 43981 528) 10 0 4130) ++
      pairEdgeList (stdWL 43981 528) (stdWH 43981 528) 10 10 11930 ∧
    (runEvents (initState tcfg)
      ((true, 4000) :: (false, 4130) ::
        pairEdgeList (stdWL 43981 528) (stdWH 43981 528) 10 0 4130)).state = READING ∧
    (runEvents (initState tcfg)
      (frameEdges 4000 130 (stdWL 43981 528) (stdWH 43981 528))).state = DONE :=
  ⟨by decide, by decide, by decide, by decide⟩

/-- C2 (amended): starting in Idle, a full valid frame (pilot, the SYNC
pairs, then 18 correctly paired payload symbol-pairs) puts the decoder in
state `DONE` after exactly 20 accepted symbol-pairs, which is 80 pin
transitions (40 falling edges) after the pilot: after every proper prefix of
`k < 20` pairs the state is still `READING`, and once in `DONE` every further
`handle_edge` call leaves the decoder unchanged until `reset()`. -/
theorem frame_completion (c : Cfg) (hc : c.ok) (v m : ℕ) (hv : v < 65536) (hm : m < 65536)
    (p h : ℕ) (hp : c.pilot_tick_min < p) (hp65 : p ≤ 65535)
    (hh : HT600_IS_IN_RANGE h c.short_tick_min c.short_tick_max)
    (wL wH : ℕ → ℕ)
    (hw : ∀ j, j < 20 →
      symWidthOk c (pairSyms v m j).1 (wL (2 * j)) (wH (2 * j)) ∧
      symWidthOk c (pairSyms v m j).2 (wL (2 * j + 1)) (wH (2 * j + 1))) :
    (∀ k, k < 20 →
      (runEvents (initState c)
        ((true, p) :: (false, p + h) :: pairEdgeList wL wH k 0 (p + h))).state = READING) ∧
    (pairEdgeList wL wH 20 0 (p + h)).length = 80 ∧
    (runEvents (initState c) (frameEdges p h wL wH)).state = DONE ∧
    (∀ (pinState : Bool) (ticks : ℕ),
      processEvent (runEvents (initState c) (frameEdges p h wL wH)) pinState ticks =
        runEvents (initState c) (frameEdges p h wL wH)) := by
  have hdone := (frame_roundtrip c hc v m hv hm p h hp hp65 hh wL wH hw).1
  refine ⟨?_, pairEdgeList_length wL wH 20 0 (p + h), hdone,
    fun pinState ticks => processEvent_done _ pinState ticks hdone⟩
  intro k hk
  rw [show ((true, p) :: (false, p + h) :: pairEdgeList wL wH k 0 (p + h)) =
      [(true, p), (false, p + h)] ++ pairEdgeList wL wH k 0 (p + h) from rfl,
    runEvents_append, pilot_detect c hc p h hp hp65 hh]
  have hmid : Mid c
      { initState c with
        state := READING, bit_index := 0, half_symbol_read := false,
        last_interrupt_tick := (p + h) % 4294967296,
        period_L := p, period_H := h } 0 (p + h) :=
    ⟨⟨rfl, rfl, rfl, rfl, rfl, rfl⟩, rfl, rfl, rfl, rfl⟩
  obtain ⟨t', hmid'⟩ := run_pairs_mid c hc v m wL wH hw k 0 (p + h) _ (by omega) hmid
  exact hmid'.2.1

theorem frame_completion_witness :
    tcfg.ok ∧
    ((∀ k, k < 20 →
      (runEvents (initState tcfg)
        ((true, 4000) :: (false, 4130) ::
          pairEdgeList (stdWL 43981 528) (stdWH 43981 528) k 0 4130)).state = READING) ∧
     (pairEdgeList (stdWL 43981 528) (stdWH 43981 528) 20 0 4130).length = 80 ∧
     (runEvents (initState tcfg)
       (frameEdges 4000 130 (stdWL 43981 528) (stdWH 43981 528))).state = DONE ∧
     (∀ (pinState : Bool) (ticks : ℕ),
       processEvent (runEvents (initState tcfg)
         (frameEdges 4000 130 (stdWL 43981 528) (stdWH 43981 528))) pinState ticks =
        runEvents (initState tcfg)
          (frameEdges 4000 130 (stdWL 43981 528) (stdWH 43981 528)))) :=
  ⟨by decide,
   frame_completion tcfg (by decide) 43981 528 (by decide) (by decide) 4000 130
     (by decide) (by decide) (by decide) (stdWL 43981 528) (stdWH 43981 528) (by decide)⟩

/-- C3: Done freeze — in state `DONE`, `processEvent` returns with every
field unchanged for every level and timestamp, so a completed frame is never
overwritten before the consumer resets. -/
theorem done_freeze (s : HT600) (pinState : Bool) (ticks : ℕ) (h : s.state = DONE) :
    processEvent s pinState ticks = s :=
  processEvent_done s pinState ticks h

theorem done_freeze_witness :
    doneState.state = DONE ∧ processEvent doneState true 99999 = doneState :=
  ⟨rfl, done_freeze doneState true 99999 rfl⟩

/-- C4: Noise rejection — in every state other than `DONE`, when the
wraparound delta `timestamp - last_event_time` is strictly below the noise
floor the event changes no field at all; when it is at or above the noise
floor, `last_interrupt_tick` is updated to the (32-bit) timestamp. -/
theorem noise_rejection (s : HT600) (pinState : Bool) (ticks : ℕ) (h : s.state ≠ DONE) :
    (u32_sub ticks s.last_interrupt_tick < s.noise_filter_tick →
      processEvent s pinState ticks = s) ∧
    (¬ u32_sub ticks s.last_interrupt_tick < s.noise_filter_tick →
      (processEvent s pinState ticks).last_interrupt_tick = ticks % 4294967296) :=
  ⟨fun hlt => processEvent_noise s pinState ticks h hlt,
   fun hge => processEvent_last s pinState ticks h hge⟩

theorem noise_rejection_witness :
    (initState tcfg).state ≠ DONE ∧
    u32_sub 10 (initState tcfg).last_interrupt_tick < (initState tcfg).noise_filter_tick ∧
    processEvent (initState tcfg) true 10 = initState tcfg ∧
    (processEvent (initState tcfg) true 130).last_interrupt_tick = 130 % 4294967296 :=
  ⟨by decide, by decide,
   (noise_rejection (initState tcfg) true 10 (by decide)).1 (by decide),
   (noise_rejection (initState tcfg) true 130 (by decide)).2 (by decide)⟩

/-- C5 counterexample: a falling edge in `READING` whose periods match no
symbol class does return the decoder to `IDLE`, but `bit_index` is NOT reset:
from `bit_index = 5` it stays 5 (the claim asserts it is reset on this
event). -/
theorem invalid_timing_cex :
    abortState.state = READING ∧
    abortState.noise_filter_tick ≤ u32_sub 130 abortState.last_interrupt_tick ∧
    ¬ (HT600_IS_IN_RANGE abortState.period_L abortState.short_tick_min abortState.short_tick_max ∧
       HT600_IS_IN_RANGE 130 abortState.long_tick_min abortState.long_tick_max) ∧
    ¬ (HT600_IS_IN_RANGE abortState.period_L abortState.long_tick_min abortState.long_tick_max ∧
       HT600_IS_IN_RANGE 130 abortState.short_tick_min abortState.short_tick_max) ∧
    ¬ (abortState.period_L > abortState.pilot_tick_min ∧
       HT600_IS_IN_RANGE 130 abortState.short_tick_min abortState.short_tick_max) ∧
    (processEvent abortState false 130).state = IDLE ∧
    (processEvent abortState false 130).bit_index = 5 ∧
    ¬ (processEvent abortState false 130).bit_index = 0 := by
  refine ⟨by decide, by decide, by decide, by decide, by decide, by decide, by decide, by decide⟩

/-- C5 (amended): whenever `processEvent` handles a falling edge in state
`READING` whose `(period_L, period_H)` pair matches none of symbol 0,
symbol 1, or a mid-stream pilot, the decoder returns to state `IDLE` and no
other decoding field changes: in particular `bit_index` retains its previous
value (it is zeroed only by the next pilot detection). -/
theorem invalid_timing_abort (s : HT600) (t d : ℕ) (hst : s.state = READING)
    (hlast : s.last_interrupt_tick = t % 4294967296) (hd : d < 4294967296)
    (hnf : s.noise_filter_tick ≤ d)
    (h1 : ¬ (HT600_IS_IN_RANGE s.period_L s.short_tick_min s.short_tick_max ∧
        HT600_IS_IN_RANGE (capped d) s.long_tick_min s.long_tick_max))
    (h2 : ¬ (HT600_IS_IN_RANGE s.period_L s.long_tick_min s.long_tick_max ∧
        HT600_IS_IN_RANGE (capped d) s.short_tick_min s.short_tick_max))
    (h3 : ¬ (s.period_L > s.pilot_tick_min ∧
        HT600_IS_IN_RANGE (capped d) s.short_tick_min s.short_tick_max)) :
    processEvent s false (t + d) =
      { s with state := IDLE, last_interrupt_tick := (t + d) % 4294967296,
               period_H := capped d } ∧
    (processEvent s false (t + d)).bit_index = s.bit_index := by
  have hD : s.state ≠ DONE := by rw [hst]; exact fun hx => nomatch hx
  have he : processEvent s false (t + d) =
      { s with state := IDLE, last_interrupt_tick := (t + d) % 4294967296,
               period_H := capped d } := by
    rw [processEvent_falling s t d hD hlast hd hnf]
    exact fallingLogic_invalid _ (by show s.state = READING; exact hst)
      (by exact h1) (by exact h2) (by exact h3)
  exact ⟨he, by rw [he]⟩

theorem invalid_timing_abort_witness :
    abortState.state = READING ∧
    (processEvent abortState false (0 + 130) =
      { abortState with
        state := IDLE, last_interrupt_tick := (0 + 130) % 4294967296,
        period_H := capped 130 } ∧
     (processEvent abortState false (0 + 130)).bit_index = abortState.bit_index) :=
  ⟨rfl,
   invalid_timing_abort abortState 0 130 rfl rfl (by decide) (by decide)
     (by decide) (by decide) (by decide)⟩

/-- C6: Mid-stream pilot resync — a falling edge in `READING` with stored
`period_L > pilot_min` and a short recorded high period restarts the frame:
the state stays `READING` (it never passes through `IDLE`), `bit_index`
becomes 0 and `half_symbol_read` is cleared, and after a subsequent complete
valid frame (SYNC pairs plus 18 payload pairs carrying `v`, `m`) only the
bits following this second pilot are visible through `get_HL_data` and
`get_Z_data` — whatever the buffers held before. -/
theorem midstream_pilot_resync (c : Cfg) (hc : c.ok) (s : HT600) (hcs : sameCfg c s)
    (hst : s.state = READING) (t d : ℕ)
    (hlast : s.last_interrupt_tick = t % 4294967296) (hd : d < 4294967296)
    (hnf : c.noise_filter_tick ≤ d)
    (hpl : c.pilot_tick_min < s.period_L)
    (hh : HT600_IS_IN_RANGE (capped d) c.short_tick_min c.short_tick_max)
    (v m : ℕ) (hv : v < 65536) (hm : m < 65536) (wL wH : ℕ → ℕ)
    (hw : ∀ j, j < 20 →
      symWidthOk c (pairSyms v m j).1 (wL (2 * j)) (wH (2 * j)) ∧
      symWidthOk c (pairSyms v m j).2 (wL (2 * j + 1)) (wH (2 * j + 1))) :
    (processEvent s false (t + d)).state = READING ∧
    (processEvent s false (t + d)).bit_index = 0 ∧
    (processEvent s false (t + d)).half_symbol_read = false ∧
    (runEvents (processEvent s false (t + d))
      (pairEdgeList wL wH 20 0 (t + d))).state = DONE ∧
    get_HL_data (runEvents (processEvent s false (t + d))
      (pairEdgeList wL wH 20 0 (t + d))) false = v &&& (65535 ^^^ m) ∧
    get_Z_data (runEvents (processEvent s false (t + d))
      (pairEdgeList wL wH 20 0 (t + d))) true = m := by
  have hres := resync_step c hc s hcs hst t d hlast hd hnf hpl hh
  rw [hres]
  have hmid : Mid c
      { s with state := READING, bit_index := 0, half_symbol_read := false,
               last_interrupt_tick := (t + d) % 4294967296, period_H := capped d }
      0 (t + d) := ⟨by exact hcs, rfl, rfl, rfl, rfl⟩
  obtain ⟨c1, -, -, c4, c5⟩ :=
    run_pairs c hc v m wL wH hw 20 0 (t + d) _ rfl (by omega) hmid
  have hHL : ∀ q, q < 16 →
      bufBit (runEvents
        { s with state := READING, bit_index := 0, half_symbol_read := false,
                 last_interrupt_tick := (t + d) % 4294967296, period_H := capped d }
        (pairEdgeList wL wH 20 0 (t + d))).buffer_HL (q + 2)
        = (!m.testBit q && v.testBit q) := by
    intro q hq
    rw [c4 (q + 2), if_pos ⟨by omega, by omega, by omega⟩,
      show q + 2 - 2 = q from by omega]
  have hZ : ∀ q, q < 16 →
      bufBit (runEvents
        { s with state := READING, bit_index := 0, half_symbol_read := false,
                 last_interrupt_tick := (t + d) % 4294967296, period_H := capped d }
        (pairEdgeList wL wH 20 0 (t + d))).buffer_Z (q + 2)
        = m.testBit q := by
    intro q hq
    rw [c5 (q + 2), if_pos ⟨by omega, by omega, by omega⟩,
      show q + 2 - 2 = q from by omega]
  obtain ⟨a1, -, a3, -⟩ := accessor_values _ v m hv hm hHL hZ
  exact ⟨rfl, rfl, rfl, c1, a1, a3⟩

theorem midstream_pilot_resync_witness :
    sameCfg tcfg resyncState ∧ resyncState.state = READING ∧
    tcfg.pilot_tick_min < resyncState.period_L ∧
    ((processEvent resyncState false (0 + 130)).state = READING ∧
     (processEvent resyncState false (0 + 130)).bit_index = 0 ∧
     (processEvent resyncState false (0 + 130)).half_symbol_read = false ∧
     (runEvents (processEvent resyncState false (0 + 130))
       (pairEdgeList (stdWL 4660 3) (stdWH 4660 3) 20 0 (0 + 130))).state = DONE ∧
     get_HL_data (runEvents (processEvent resyncState false (0 + 130))
       (pairEdgeList (stdWL 4660 3) (stdWH 4660 3) 20 0 (0 + 130))) false =
       4660 &&& (65535 ^^^ 3) ∧
     get_Z_data (runEvents (processEvent resyncState false (0 + 130))
       (pairEdgeList (stdWL 4660 3) (stdWH 4660 3) 20 0 (0 + 130))) true = 3) :=
  ⟨by decide, rfl, by decide,
   midstream_pilot_resync tcfg (by decide) resyncState (by decide) rfl 0 130 rfl
     (by decide) (by decide) (by decide) (by decide) 4660 3 (by decide) (by decide)
     (stdWL 4660 3) (stdWH 4660 3) (by decide)⟩

/-- C7: Pilot detection in Idle — a falling edge with delta at or above the
noise floor transitions `IDLE → READING` with `bit_index = 0` and
`half_symbol_read` cleared exactly when the stored `period_L` exceeds
`pilot_tick_min` and the recorded high period lies in the short range; on
every other falling edge in `IDLE` the state stays `IDLE` and nothing but
`last_interrupt_tick` and `period_H` changes. -/
theorem idle_pilot_detection (s : HT600) (t d : ℕ) (hst : s.state = IDLE)
    (hlast : s.last_interrupt_tick = t % 4294967296) (hd : d < 4294967296)
    (hnf : s.noise_filter_tick ≤ d) :
    (s.period_L > s.pilot_tick_min ∧
        HT600_IS_IN_RANGE (capped d) s.short_tick_min s.short_tick_max →
      processEvent s false (t + d) =
        { s with state := READING, bit_index := 0, half_symbol_read := false,
                 last_interrupt_tick := (t + d) % 4294967296, period_H := capped d }) ∧
    (¬ (s.period_L > s.pilot_tick_min ∧
        HT600_IS_IN_RANGE (capped d) s.short_tick_min s.short_tick_max) →
      processEvent s false (t + d) =
        { s with last_interrupt_tick := (t + d) % 4294967296, period_H := capped d }) := by
  have hD : s.state ≠ DONE := by rw [hst]; exact fun hx => nomatch hx
  constructor
  · intro hcond
    rw [processEvent_falling s t d hD hlast hd hnf]
    exact fallingLogic_idle_pilot _ (by show s.state = IDLE; exact hst) (by exact hcond)
  · intro hcond
    rw [processEvent_falling s t d hD hlast hd hnf]
    exact fallingLogic_idle_other _ (by show s.state = IDLE; exact hst) (by exact hcond)

theorem idle_pilot_detection_witness :
    idleArmed.state = IDLE ∧
    (idleArmed.period_L > idleArmed.pilot_tick_min ∧
      HT600_IS_IN_RANGE (capped 130) idleArmed.short_tick_min idleArmed.short_tick_max) ∧
    processEvent idleArmed false (0 + 130) =
      { idleArmed with
        state := READING, bit_index := 0, half_symbol_read := false,
        last_interrupt_tick := (0 + 130) % 4294967296, period_H := capped 130 } ∧
    ¬ ((initState tcfg).period_L > (initState tcfg).pilot_tick_min ∧
      HT600_IS_IN_RANGE (capped 130) (initState tcfg).short_tick_min
        (initState tcfg).short_tick_max) ∧
    processEvent (initState tcfg) false (0 + 130) =
      { initState tcfg with
        last_interrupt_tick := (0 + 130) % 4294967296, period_H := capped 130 } :=
  ⟨rfl, by decide,
   (idle_pilot_detection idleArmed 0 130 rfl rfl (by decide) (by decide)).1 (by decide),
   by decide,
   (idle_pilot_detection (initState tcfg) 0 130 rfl rfl (by decide) (by decide)).2 (by decide)⟩

lemma floor_toNat_congr (a b : ℚ) (hab : a = b) : (⌊a⌋).toNat = (⌊b⌋).toNat := by
  rw [hab]

/-- C8: Threshold derivation — for every construction with positive
oscillator frequency and tick length and a tolerance percentage of at most
100 (i.e. a tolerance fraction `t = tolerance / 100` in [0, 1]), the stored
thresholds equal the base symbol period `P = (33000 / fosc_khz) /
tick_length_us` ticks scaled as `short_min = P·(1 − t)`,
`short_max = P·(1 + t)`, `long_min = 2P·(1 − t)`, `long_max = 2P·(1 + t)`,
and `pilot_min = 36P·(1 − t)`, each truncated to whole ticks; the noise floor
equals `noise_filter_us / tick_length_us` ticks (integer division).  No
upper bound on the pilot pulse is stored (`Cfg` has no pilot maximum). -/
theorem threshold_derivation (fosc_khz tolerance tick_length_us noise_filter_us : ℕ)
    (hf : 0 < fosc_khz) (ht : 0 < tick_length_us) (htol : tolerance ≤ 100) :
    (mkCfg fosc_khz tolerance tick_length_us noise_filter_us).short_tick_min =
      (⌊33000 / (fosc_khz : ℚ) / (tick_length_us : ℚ) *
        (1 - (tolerance : ℚ) / 100)⌋).toNat ∧
    (mkCfg fosc_khz tolerance tick_length_us noise_filter_us).short_tick_max =
      (⌊33000 / (fosc_khz : ℚ) / (tick_length_us : ℚ) *
        (1 + (tolerance : ℚ) / 100)⌋).toNat ∧
    (mkCfg fosc_khz tolerance tick_length_us noise_filter_us).long_tick_min =
      (⌊2 * (33000 / (fosc_khz : ℚ) / (tick_length_us : ℚ)) *
        (1 - (tolerance : ℚ) / 100)⌋).toNat ∧
    (mkCfg fosc_khz tolerance tick_length_us noise_filter_us).long_tick_max =
      (⌊2 * (33000 / (fosc_khz : ℚ) / (tick_length_us : ℚ)) *
        (1 + (tolerance : ℚ) / 100)⌋).toNat ∧
    (mkCfg fosc_khz tolerance tick_length_us noise_filter_us).pilot_tick_min =
      (⌊36 * (33000 / (fosc_khz : ℚ) / (tick_length_us : ℚ)) *
        (1 - (tolerance : ℚ) / 100)⌋).toNat ∧
    (mkCfg fosc_khz tolerance tick_length_us noise_filter_us).noise_filter_tick =
      noise_filter_us / tick_length_us := by
  refine ⟨?_, ?_, ?_, ?_, ?_, rfl⟩ <;> exact floor_toNat_congr _ _ (by ring)

theorem threshold_derivation_witness :
    (0 : ℕ) < 85 ∧ (0 : ℕ) < 1 ∧ (30 : ℕ) ≤ 100 ∧
    ((mkCfg 85 30 1 50).short_tick_min =
      (⌊33000 / (85 : ℚ) / (1 : ℚ) * (1 - (30 : ℚ) / 100)⌋).toNat ∧
     (mkCfg 85 30 1 50).short_tick_max =
      (⌊33000 / (85 : ℚ) / (1 : ℚ) * (1 + (30 : ℚ) / 100)⌋).toNat ∧
     (mkCfg 85 30 1 50).long_tick_min =
      (⌊2 * (33000 / (85 : ℚ) / (1 : ℚ)) * (1 - (30 : ℚ) / 100)⌋).toNat ∧
     (mkCfg 85 30 1 50).long_tick_max =
      (⌊2 * (33000 / (85 : ℚ) / (1 : ℚ)) * (1 + (30 : ℚ) / 100)⌋).toNat ∧
     (mkCfg 85 30 1 50).pilot_tick_min =
      (⌊36 * (33000 / (85 : ℚ) / (1 : ℚ)) * (1 - (30 : ℚ) / 100)⌋).toNat ∧
     (mkCfg 85 30 1 50).noise_filter_tick = 50 / 1) :=
  ⟨by decide, by decide, by decide,
   threshold_derivation 85 30 1 50 (by decide) (by decide) (by decide)⟩

/-- C9: Reset idempotence — `reset()` always produces the one fixed dynamic
state (Idle, `bit_index = 0`, flags cleared, periods and timestamp zero,
both 3-byte buffers zeroed) regardless of the state it is called in; it is
idempotent; and from every reachable state it restores exactly the
post-construction state for the instance's thresholds. -/
theorem reset_idempotence :
    (∀ s : HT600, s.reset.state = IDLE ∧ s.reset.bit_index = 0 ∧
      s.reset.half_symbol_read = false ∧ s.reset.period_L = 0 ∧ s.reset.period_H = 0 ∧
      s.reset.last_interrupt_tick = 0 ∧
      ∀ i, i < 3 → s.reset.buffer_HL i = 0 ∧ s.reset.buffer_Z i = 0) ∧
    (∀ s : HT600, s.reset.reset = s.reset) ∧
    (∀ (c : Cfg) (s : HT600), Reachable c s → s.reset = initState c) := by
  refine ⟨?_, reset_reset, reset_eq_init⟩
  intro s
  refine ⟨rfl, rfl, rfl, rfl, rfl, rfl, ?_⟩
  intro i hi
  constructor
  · show (if i < 3 then 0 else s.buffer_HL i) = 0
    rw [if_pos hi]
  · show (if i < 3 then 0 else s.buffer_Z i) = 0
    rw [if_pos hi]

theorem reset_idempotence_witness :
    (processEvent (initState tcfg) true 4000).reset = initState tcfg ∧
    doneState.reset.reset = doneState.reset ∧
    doneState.reset.state = IDLE ∧ doneState.reset.bit_index = 0 :=
  ⟨reset_idempotence.2.2 tcfg _ (Reachable.step _ true 4000 Reachable.init),
   reset_idempotence.2.1 doneState,
   (reset_idempotence.1 doneState).1,
   (reset_idempotence.1 doneState).2.1⟩

/-- C10: Buffer-index safety — in every reachable state `bit_index ≤ 20`;
`processEvent` modifies a buffer byte only when `2 ≤ bit_index ≤ 19` and
only at byte `bit_index >>> 3`, which is then `< 3`; the accessors read only
the byte indexes `(i + 2) >>> 3 < 3` for `i < 16`, so their results depend
only on bytes 0..2 of the two 3-byte buffers — no access is out of
bounds. -/
theorem buffer_index_safety (c : Cfg) (s : HT600) (hr : Reachable c s) :
    s.bit_index ≤ 20 ∧
    (∀ (pinState : Bool) (ticks i : ℕ),
      ¬ ((processEvent s pinState ticks).buffer_HL i = s.buffer_HL i ∧
         (processEvent s pinState ticks).buffer_Z i = s.buffer_Z i) →
      2 ≤ s.bit_index ∧ s.bit_index ≤ 19 ∧ i = s.bit_index >>> 3 ∧ i < 3) ∧
    (∀ i, i < 16 → (i + 2) >>> 3 < 3) ∧
    (∀ s' : HT600,
      (∀ i, i < 3 → s'.buffer_HL i = s.buffer_HL i ∧ s'.buffer_Z i = s.buffer_Z i) →
      ∀ z, get_HL_data s' z = get_HL_data s z ∧ get_Z_data s' z = get_Z_data s z) := by
  obtain ⟨hcs, hbuf, hb20, hbD⟩ := reach_inv c s hr
  refine ⟨hb20, ?_, ?_, ?_⟩
  · intro pinState ticks i hne
    obtain ⟨hst, hge2, hieq⟩ := processEvent_buffers s pinState ticks i hne
    have h19 : s.bit_index ≤ 19 := hbD (by rw [hst]; exact fun hx => nomatch hx)
    refine ⟨hge2, h19, hieq, ?_⟩
    rw [hieq, shiftRight_three_eq]
    omega
  · intro i hi
    rw [shiftRight_three_eq]
    omega
  · intro s' hagree z
    constructor
    · apply Nat.eq_of_testBit_eq
      intro q
      rw [get_HL_testBit, get_HL_testBit]
      by_cases hq : q < 16
      · have hb : (q + 2) >>> 3 < 3 := by rw [shiftRight_three_eq]; omega
        unfold bufBit
        rw [(hagree _ hb).1, (hagree _ hb).2]
      · simp [hq]
    · apply Nat.eq_of_testBit_eq
      intro q
      rw [get_Z_testBit, get_Z_testBit]
      by_cases hq : q < 16
      · have hb : (q + 2) >>> 3 < 3 := by rw [shiftRight_three_eq]; omega
        unfold bufBit
        rw [(hagree _ hb).2]
      · simp [hq]

theorem buffer_index_safety_witness :
    (initState tcfg).bit_index ≤ 20 ∧ (∀ i, i < 16 → (i + 2) >>> 3 < 3) :=
  ⟨(buffer_index_safety tcfg (initState tcfg) Reachable.init).1,
   (buffer_index_safety tcfg (initState tcfg) Reachable.init).2.2.1⟩
